import Mathlib

/-!
Verification development for the NockchainWallet-GUI repository
(`nock2.py` and `nockwallet-v0.1.1.py`).

The Python code is shallowly embedded: strings are `List Char` (wrapped in
`String` at the interfaces), the specific regular expressions used by the
wallet-output parsers are translated into deterministic scanners (each regex
used by the code has disjoint character classes between adjacent quantified
parts, so Python's leftmost-greedy backtracking search collapses to a
maximal-munch scan tried at every start position), fallible code returns
`Option`, floating point numbers are modelled by exact rationals (division by
the power of two 65536 is exact on IEEE doubles for all values the parsers
can feed it below 2^53), and GUI/subprocess side effects are modelled as
traces of `Effect` values produced by pure functions of the configuration,
the user inputs and the outcome of the external command.
-/

/-! ## Character classes and low-level string scanning helpers -/

/-- The character list underlying a Python string. -/
abbrev Chars := List Char

/-- Python regex `\s` (ASCII range, as produced by the wallet CLI). -/
def isPySpace (c : Char) : Bool :=
  c = ' ' || c = '\t' || c = '\n' || c = '\x0d' || c = '\x0b' || c = '\x0c'

/-- Python regex `\d` (ASCII digits). -/
def isDigitC (c : Char) : Bool :=
  '0' ≤ c && c ≤ '9'

/-- Character class `[\d.,]` used by the balance and height regexes. -/
def isNumPunct (c : Char) : Bool :=
  isDigitC c || c = '.' || c = ','

/-- Character class `[0-9a-f]` of the nock2 note regex. -/
def isHexLower (c : Char) : Bool :=
  isDigitC c || ('a' ≤ c && c ≤ 'f')

/-- Character class `[0-9a-zA-Z]` of the v0.1.1 note and block-hash regexes. -/
def isAlnum (c : Char) : Bool :=
  isDigitC c || ('a' ≤ c && c ≤ 'z') || ('A' ≤ c && c ≤ 'Z')

/-- If `lit` is a prefix of `s`, return the rest of `s`. -/
def dropLit (lit s : Chars) : Option Chars :=
  match lit, s with
  | [], s => some s
  | _, [] => none
  | a :: lit2, b :: s2 => if a = b then dropLit lit2 s2 else none

/-- Case-insensitive variant of `dropLit` (for regexes with `re.IGNORECASE`). -/
def dropLitCI (lit s : Chars) : Option Chars :=
  match lit, s with
  | [], s => some s
  | _, [] => none
  | a :: lit2, b :: s2 => if a.toLower = b.toLower then dropLitCI lit2 s2 else none

/-- Python `re.search`: try the matcher at every start position, leftmost
first, and return the first success. -/
def searchWith {α : Type} (m : Chars → Option α) : Chars → Option α
  | [] => m []
  | c :: rest =>
    match m (c :: rest) with
    | some r => some r
    | none => searchWith m rest

/-- Python `needle in hay` substring test. -/
def containsSub (needle hay : Chars) : Bool :=
  match hay with
  | [] => (dropLit needle []).isSome
  | _ :: rest => (dropLit needle hay).isSome || containsSub needle rest

/-- Python `str.split(sep)` for a one-character separator. -/
def splitOnChar (sep : Char) : Chars → List Chars
  | [] => [[]]
  | c :: rest =>
    if c = sep then [] :: splitOnChar sep rest
    else
      match splitOnChar sep rest with
      | [] => [[c]]
      | h :: t => (c :: h) :: t

/-- Python `str.strip()` (whitespace on both ends). -/
def pyStrip (s : Chars) : Chars :=
  ((s.dropWhile isPySpace).reverse.dropWhile isPySpace).reverse

/-- Python `str.lower()` (ASCII case mapping). -/
def lowerChars (s : Chars) : Chars :=
  s.map Char.toLower

/-- Join a list of character lists with a separator character. -/
def joinWith (sep : Char) : List Chars → Chars
  | [] => []
  | [l] => l
  | l :: rest => l ++ sep :: joinWith sep rest

/-- Length of the longest run of characters satisfying `p`. -/
def maxRunAux (p : Char → Bool) : Chars → Nat → Nat → Nat
  | [], cur, best => max cur best
  | c :: rest, cur, best =>
    if p c then maxRunAux p rest (cur + 1) best
    else maxRunAux p rest 0 (max cur best)

/-- Regex `X{n,}` on class `p`: some run of at least `n` characters of
class `p` occurs in `s`. -/
def containsRun (p : Char → Bool) (n : Nat) (s : Chars) : Bool :=
  n ≤ maxRunAux p s 0 0

/-- Numeric value of a digit list (most significant first). -/
def digitsToNat (s : Chars) : Nat :=
  s.foldl (fun acc c => acc * 10 + (c.toNat - '0'.toNat)) 0

/-- Python `int(s)` restricted to the strings the parsers can feed it
(characters drawn from digits, `.` and `,` with the commas already removed):
it succeeds exactly on non-empty all-digit strings. -/
def pyIntNat (s : Chars) : Option Nat :=
  if s ≠ [] && s.all isDigitC then some (digitsToNat s) else none

/-- Take a non-empty maximal digit run, returning it and the rest. -/
def takeDigits1 (s : Chars) : Option (Chars × Chars) :=
  let d := s.takeWhile isDigitC
  if d.isEmpty then none else some (d, s.dropWhile isDigitC)

/-- Expect a single literal character. -/
def expectChar (c : Char) : Chars → Option Chars
  | [] => none
  | x :: r => if x = c then some r else none

/-! ## Number formatting (Python `format`) -/

/-- Round `num / den` to the nearest integer, ties to even (the rounding
used by `%.6f` on an exactly representable IEEE double). -/
def rndHalfEven (num den : Nat) : Nat :=
  let q := num / den
  let r := num % den
  if den < 2 * r then q + 1
  else if 2 * r < den then q
  else if q % 2 = 0 then q else q + 1

/-- Left-pad a digit list with zeros to width `w`. -/
def padZeros (w : Nat) (s : Chars) : Chars :=
  List.replicate (w - s.length) '0' ++ s

/-- Python `f-string` `:.6f` applied to the double `nicks / 65536`, which is
exact for `nicks < 2^53`: round `nicks * 10^6 / 2^16 = nicks * 15625 / 1024`
half-to-even and print six decimals. -/
def format6 (nicks : Nat) : String :=
  let scaled := rndHalfEven (nicks * 15625) 1024
  String.mk ((toString (scaled / 1000000)).data ++
    '.' :: padZeros 6 (toString (scaled % 1000000)).data)

/-- Insert thousands separators into a reversed digit list. -/
def group3 : Chars → Chars
  | a :: b :: c :: d :: rest => a :: b :: c :: ',' :: group3 (d :: rest)
  | l => l

/-- Python `f-string` `:,` thousands grouping of a natural number. -/
def groupDigits (n : Nat) : String :=
  String.mk ((group3 (toString n).data.reverse).reverse)

/-! ## `nock2.py`: `WalletOutputParser` -/

namespace nock2

/-- Matcher for `LABEL\s*([\d.,]+)\s*nicks` at the current position
(`parse_balance`, with `LABEL` being `Total:` or `Available:`); adjacent
quantified parts have disjoint character classes, so the backtracking match
is the maximal-munch scan. Returns the captured group. -/
def matchNicksAmountAt (label : Chars) (s : Chars) : Option Chars :=
  (dropLit label s).bind fun r0 =>
  let r1 := r0.dropWhile isPySpace
  let g := r1.takeWhile isNumPunct
  if g.isEmpty then none
  else
    let r2 := (r1.dropWhile isNumPunct).dropWhile isPySpace
    if (dropLit "nicks".data r2).isSome then some g else none

/-- Matcher for `Version:\s*(\d+\.\d+\.\d+)` at the current position. -/
def matchVersionAt (s : Chars) : Option Chars :=
  (dropLit "Version:".data s).bind fun r0 =>
  let r1 := r0.dropWhile isPySpace
  (takeDigits1 r1).bind fun p1 =>
  (expectChar '.' p1.2).bind fun r2 =>
  (takeDigits1 r2).bind fun p2 =>
  (expectChar '.' p2.2).bind fun r3 =>
  (takeDigits1 r3).map fun p3 =>
  p1.1 ++ '.' :: p2.1 ++ '.' :: p3.1

/-- Matcher for `Height:\s*([\d.,]+)` at the current position. -/
def matchHeightAt (s : Chars) : Option Chars :=
  (dropLit "Height:".data s).bind fun r0 =>
  let r1 := r0.dropWhile isPySpace
  let g := r1.takeWhile isNumPunct
  if g.isEmpty then none else some g

/-- Result dictionary of `WalletOutputParser.parse_balance`. -/
structure BalanceInfo where
  total_nicks : Nat
  total_nock : ℚ
  available_nicks : Nat
  available_nock : ℚ
  formatted : String
deriving DecidableEq

/-- The `formatted` field built by `parse_balance`. -/
def balanceFormatted (total available : Nat) : String :=
  format6 total ++ " NOCK (" ++ format6 available ++ " disponibles)"

/-- `WalletOutputParser.parse_balance` of `nock2.py`: search
`Total:\s*([\d.,]+)\s*nicks` and `Available:\s*([\d.,]+)\s*nicks`, strip
commas and convert with `int` (a `ValueError` — e.g. a period left in the
group — is caught and yields `None`), and divide by 65536. -/
def parse_balance (output : String) : Option BalanceInfo :=
  match searchWith (matchNicksAmountAt "Total:".data) output.data with
  | none => none
  | some g =>
    match pyIntNat (g.filter (· ≠ ',')) with
    | none => none
    | some total =>
      match searchWith (matchNicksAmountAt "Available:".data) output.data with
      | some g2 =>
        match pyIntNat (g2.filter (· ≠ ',')) with
        | none => none
        | some av =>
          some ⟨total, (total : ℚ) / 65536, av, (av : ℚ) / 65536,
            balanceFormatted total av⟩
      | none =>
        some ⟨total, (total : ℚ) / 65536, 0, (0 : ℚ) / 65536,
          balanceFormatted total 0⟩

/-- `WalletOutputParser.parse_wallet_version` of `nock2.py`:
search `Version:\s*(\d+\.\d+\.\d+)`. -/
def parse_wallet_version (output : String) : Option String :=
  (searchWith matchVersionAt output.data).map String.mk

/-- `WalletOutputParser.parse_height` of `nock2.py`: search
`Height:\s*([\d.,]+)`, drop `,` and `.`, convert with `int`
(a `ValueError` on an empty remainder is caught and yields `None`). -/
def parse_height (output : String) : Option Nat :=
  match searchWith matchHeightAt output.data with
  | some g => pyIntNat (g.filter fun c => !(c = ',' || c = '.'))
  | none => none

/-- `WalletOutputParser.parse_notes` of `nock2.py`: keep every line
containing a run of at least forty `[0-9a-f]` characters, stripped. -/
def parse_notes (output : String) : List String :=
  (splitOnChar '\n' output.data).filterMap fun line =>
    if containsRun isHexLower 40 line then some (String.mk (pyStrip line))
    else none

/-- The substrings whose presence in a lowered line makes
`extract_error` of `nock2.py` drop the line. -/
def skip_list : List Chars :=
  ["[0m".data, "[32m".data, "[33m".data, "trace".data, "debug".data]

/-- The lines `extract_error` of `nock2.py` keeps: stripped, not matching a
skip pattern, non-empty, not starting with `--`. -/
def errLines (stderr : Chars) : List Chars :=
  (splitOnChar '\n' stderr).filterMap fun line =>
    let l := pyStrip line
    if skip_list.any (fun p => containsSub p (lowerChars l)) then none
    else if l ≠ [] && !(dropLit "--".data l).isSome then some l
    else none

/-- `WalletOutputParser.extract_error` of `nock2.py`: the kept lines joined
by newlines, or the whole stderr when no line is kept. -/
def extract_error (stderr : String) : String :=
  match errLines stderr.data with
  | [] => stderr
  | l :: rest => String.mk (joinWith '\n' (l :: rest))

end nock2

/-! ## `nockwallet-v0.1.1.py`: `WalletOutputParser` -/

namespace v011

/-- Matcher for `Balance:\s*(\d[\d,]*)\s*nicks?` with `re.IGNORECASE`
at the current position (`parse_balance` of v0.1.1). -/
def matchBalanceAt (s : Chars) : Option Chars :=
  (dropLitCI "Balance:".data s).bind fun r0 =>
  let r1 := r0.dropWhile isPySpace
  r1.head?.bind fun c =>
    if isDigitC c then
      let g := r1.takeWhile fun x => isDigitC x || x = ','
      let r2 := (r1.dropWhile fun x => isDigitC x || x = ',').dropWhile isPySpace
      if (dropLitCI "nick".data r2).isSome then some g else none
    else none

/-- Result dictionary of v0.1.1 `parse_balance`. -/
structure BalanceInfo where
  balance : Nat
  formatted : String
deriving DecidableEq

/-- `WalletOutputParser.parse_balance` of `nockwallet-v0.1.1.py`: the group
starts with a digit, so after removing commas `int` always succeeds. -/
def parse_balance (output : String) : Option BalanceInfo :=
  match searchWith matchBalanceAt output.data with
  | some g =>
    match pyIntNat (g.filter (· ≠ ',')) with
    | some b => some ⟨b, groupDigits b ++ " nicks"⟩
    | none => none
  | none => none

/-- Matcher for `Wallet Version:\s*(.+)` at the current position.
`\s*` is greedy; when characters remain after the maximal whitespace run the
group is the rest of that line, otherwise the engine backtracks into the
whitespace and the group is its last non-newline character (`.` does not
match a newline). -/
def matchWVAt (s : Chars) : Option Chars :=
  (dropLit "Wallet Version:".data s).bind fun r0 =>
  let w := r0.takeWhile isPySpace
  let rest := r0.dropWhile isPySpace
  match rest with
  | _ :: _ => some (rest.takeWhile (· ≠ '\n'))
  | [] =>
    match w.reverse.dropWhile (· = '\n') with
    | c :: _ => some [c]
    | [] => none

/-- `WalletOutputParser.parse_wallet_version` of `nockwallet-v0.1.1.py`:
search `Wallet Version:\s*(.+)` and strip the group. -/
def parse_wallet_version (output : String) : Option String :=
  (searchWith matchWVAt output.data).map fun g => String.mk (pyStrip g)

/-- Matcher for `at height\s*([\d.,]+)` with `re.IGNORECASE`. -/
def matchHeightAt (s : Chars) : Option Chars :=
  (dropLitCI "at height".data s).bind fun r0 =>
  let r1 := r0.dropWhile isPySpace
  let g := r1.takeWhile isNumPunct
  if g.isEmpty then none else some g

/-- `WalletOutputParser.parse_height` of `nockwallet-v0.1.1.py`. -/
def parse_height (output : String) : Option Nat :=
  match searchWith matchHeightAt output.data with
  | some g => pyIntNat (g.filter fun c => !(c = ',' || c = '.'))
  | none => none

/-- Matcher for `Number of Notes:\s*(\d+)` with `re.IGNORECASE`. -/
def matchNumNotesAt (s : Chars) : Option Chars :=
  (dropLitCI "Number of Notes:".data s).bind fun r0 =>
  let r1 := r0.dropWhile isPySpace
  let g := r1.takeWhile isDigitC
  if g.isEmpty then none else some g

/-- `WalletOutputParser.parse_number_of_notes` of `nockwallet-v0.1.1.py`. -/
def parse_number_of_notes (output : String) : Option Nat :=
  (searchWith matchNumNotesAt output.data).map digitsToNat

/-- Matcher for `from block\s+([A-Za-z0-9]+)` (case sensitive, `\s+`
requires at least one whitespace character). -/
def matchBlockHashAt (s : Chars) : Option Chars :=
  (dropLit "from block".data s).bind fun r0 =>
  let w := r0.takeWhile isPySpace
  if w.isEmpty then none
  else
    let r1 := r0.dropWhile isPySpace
    let g := r1.takeWhile isAlnum
    if g.isEmpty then none else some g

/-- `WalletOutputParser.parse_block_hash` of `nockwallet-v0.1.1.py`. -/
def parse_block_hash (output : String) : Option String :=
  (searchWith matchBlockHashAt output.data).map String.mk

/-- `WalletOutputParser.parse_notes` of `nockwallet-v0.1.1.py`: keep every
line containing a run of at least forty `[0-9a-zA-Z]` characters. -/
def parse_notes (output : String) : List String :=
  (splitOnChar '\n' output.data).filterMap fun line =>
    if containsRun isAlnum 40 line then some (String.mk (pyStrip line))
    else none

/-- `WalletOutputParser.extract_success_message` of `nockwallet-v0.1.1.py`. -/
def extract_success_message (output : String) : Option String :=
  if containsSub "Command executed successfully".data output.data then
    some "✓ Commande exécutée avec succès"
  else if containsSub "successfully".data (lowerChars output.data) then
    some "✓ Opération réussie"
  else none

/-- The skip patterns of `extract_error` of `nockwallet-v0.1.1.py`; they are
tested with `pattern in line.lower()`, so the pattern containing upper-case
letters can never match. -/
def skip_list : List Chars :=
  ["[0m".data, "[32m".data, "[33m".data, "trace".data, "debug".data,
   "kernel::boot".data, "NockApp boot".data, "save interval".data]

/-- The lines `extract_error` of `nockwallet-v0.1.1.py` keeps. -/
def errLines (stderr : Chars) : List Chars :=
  (splitOnChar '\n' stderr).filterMap fun line =>
    let l := pyStrip line
    if l ≠ [] && !(skip_list.any fun p => containsSub p (lowerChars l)) then
      if !(dropLit "--".data l).isSome then some l else none
    else none

/-- `WalletOutputParser.extract_error` of `nockwallet-v0.1.1.py`. -/
def extract_error (stderr : String) : String :=
  match errLines stderr.data with
  | [] => stderr
  | l :: rest => String.mk (joinWith '\n' (l :: rest))

/-- Removal of the prefix `^I \(\d+:\d+:\d+\)\s*` (`clean_output`). -/
def stripLogPre (l : Chars) : Chars :=
  match
    (dropLit "I (".data l).bind fun r0 =>
    (takeDigits1 r0).bind fun p1 =>
    (expectChar ':' p1.2).bind fun r1 =>
    (takeDigits1 r1).bind fun p2 =>
    (expectChar ':' p2.2).bind fun r2 =>
    (takeDigits1 r2).bind fun p3 =>
    (expectChar ')' p3.2).map fun r3 =>
    r3.dropWhile isPySpace
  with
  | some r => r
  | none => l

/-- Split at the first occurrence of `c`, dropping it. -/
def breakAt (c : Char) : Chars → Option (Chars × Chars)
  | [] => none
  | x :: r =>
    if x = c then some ([], r)
    else (breakAt c r).map fun p => (x :: p.1, p.2)

/-- Removal of the prefix `^\[.*?\]\s*` (`clean_output`): non-greedy, so up
to the first `]`, and `.` does not cross a newline. -/
def stripBracket (l : Chars) : Chars :=
  match l with
  | '[' :: rest =>
    match breakAt ']' rest with
    | some p => if p.1.all (· ≠ '\n') then p.2.dropWhile isPySpace else l
    | none => l
  | _ => l

/-- The skip patterns of `clean_output` (tested case sensitively). -/
def clean_skip_list : List Chars :=
  ["kernel::boot".data, "NockApp boot cli".data, "build-hash".data,
   "nockapp: Nockapp save interval".data, "Command requires syncing".data,
   "Connected to public".data, "Received balance update".data]

/-- `WalletOutputParser.clean_output` of `nockwallet-v0.1.1.py`. -/
def clean_output (output : String) : String :=
  String.mk (joinWith '\n'
    ((splitOnChar '\n' output.data).filterMap fun line =>
      if pyStrip line ≠ [] &&
          !(clean_skip_list.any fun p => containsSub p line) then
        let cleaned := stripBracket (stripLogPre line)
        if pyStrip cleaned ≠ [] then some (pyStrip cleaned) else none
      else none))

end v011

/-! ## Subprocess invocations and GUI effects -/

/-- One `subprocess.run` invocation: argument vector and keyword options. -/
structure RunSpec where
  cmd : List String
  timeout : Option Nat
  check : Bool
deriving DecidableEq

/-- Outcome of a `subprocess.run` call: normal completion with exit code and
captured streams, `subprocess.TimeoutExpired`, `FileNotFoundError` (missing
binary), or any other exception with its rendered message. -/
inductive RunOutcome where
  | completed (returncode : Int) (stdout stderr : String)
  | timedOut
  | fileNotFound
  | raised (msg : String)
deriving DecidableEq

/-- Observable actions of an event handler, in order: launching the external
command, appending a line to the log area, showing a modal dialog
(`QMessageBox`), setting a label text or style, the status bar message,
filling the notes table, and a call to the configuration-save helper
(`saveCfg` stands for the whole `_save_config`/`save_config` call including
its own logging). -/
inductive Effect where
  | runCmd (r : RunSpec)
  | log (msg ty : String)
  | dialog (kind title msg : String)
  | setText (widget msg : String)
  | setStyle (widget style : String)
  | statusMsg (msg : String)
  | table (rows : List String)
  | saveCfg
deriving DecidableEq

/-- Python `" ".join(cmd)` used when echoing commands to the log. -/
def joinSpace (cmd : List String) : String :=
  String.intercalate " " cmd

/-- Python `repr` of a list of strings (quoted, comma separated). -/
def pyListRepr (l : List String) : String :=
  "[" ++ String.intercalate ", " (l.map fun s => "\x27" ++ s ++ "\x27") ++ "]"

/-- Modelled from the Python standard library: `str(e)` for
`subprocess.TimeoutExpired` (its exact text plays no role in any claim). -/
def timeoutExnStr (cmd : List String) (t : Nat) : String :=
  "Command \x27" ++ pyListRepr cmd ++ "\x27 timed out after " ++ toString t ++
    " seconds"

/-- Modelled from the Python standard library: `str(e)` for the
`FileNotFoundError` raised when the binary is missing (its exact text plays
no role in any claim). -/
def fnfStr (binary : String) : String :=
  "[Errno 2] No such file or directory: \x27" ++ binary ++ "\x27"

/-- Python `Path(p).name`: the last `/`-separated component. -/
def baseName (s : String) : String :=
  String.mk ((splitOnChar '/' s.data).getLastD [])

/-- Does an effect launch an external command? -/
def isRunE : Effect → Bool
  | .runCmd _ => true
  | _ => false

/-- Does an effect append a line to the log area? -/
def isLogE : Effect → Bool
  | .log _ _ => true
  | _ => false

/-- Does an effect append an error or warning line to the log area? -/
def isBadLogE : Effect → Bool
  | .log _ ty => ty = "error" || ty = "warning"
  | _ => false

/-- Does an effect show a modal dialog? -/
def isDialogE : Effect → Bool
  | .dialog _ _ _ => true
  | _ => false

/-! ## `nock2.py`: configuration, command construction, event handlers -/

namespace nock2

/-- The in-memory configuration of `nock2.py` (the keys of
`DEFAULT_CONFIG`, with the types the program stores in them). -/
structure Config where
  wallet_binary : String
  wallet_path : String
  wallet_imported : Bool
  client_type : String
  public_server : String
  private_port : String
  last_used_directory : String
deriving DecidableEq

/-- `NockchainWalletGUI._build_base_command` of `nock2.py`. -/
def build_base_command (cfg : Config) (include_wallet : Bool) : List String :=
  [cfg.wallet_binary] ++
  (if cfg.client_type = "public" then
    ["--client", "public"] ++
    (if cfg.public_server ≠ "" &&
        cfg.public_server ≠ "https://nockchain-api.zorp.io" then
      ["--public-grpc-server-addr", cfg.public_server]
    else [])
  else
    ["--client", "private"] ++
    (if cfg.private_port ≠ "" && cfg.private_port ≠ "50051" then
      ["--private-grpc-server-port", cfg.private_port]
    else [])) ++
  (if include_wallet && cfg.wallet_imported then
    ["--wallet", cfg.wallet_path]
  else [])

/-- First `subprocess.run` of `TransactionEngine.send_funds` (`create-tx`):
no `timeout` keyword is passed. -/
def send_funds_create_run (wallet_binary recipient : String)
    (amount_nicks : Int) (note_names : List String) (fee : Int) : RunSpec :=
  ⟨[wallet_binary, "create-tx", "--recipient",
      recipient ++ ":" ++ toString amount_nicks, "--fee", toString fee] ++
    (if note_names.isEmpty then []
     else ["--names", "[" ++ joinSpace note_names ++ "]"]),
   none, true⟩

/-- Second `subprocess.run` of `TransactionEngine.send_funds` (`send-tx`):
no `timeout` keyword is passed. -/
def send_funds_send_run (wallet_binary tx_file : String) : RunSpec :=
  ⟨[wallet_binary, "send-tx", tx_file], none, true⟩

/-- The `subprocess.run` of `_check_binary` (timeout 5). -/
def check_binary_run (cfg : Config) : RunSpec :=
  ⟨[cfg.wallet_binary, "--help"], some 5, false⟩

/-- Command of `_import_wallet` of `nock2.py`. -/
def import_cmd (cfg : Config) (src : String) : List String :=
  [cfg.wallet_binary, "import-keys", "--file", src] ++
  (if cfg.wallet_imported && cfg.wallet_path ≠ "" then
    ["--wallet", cfg.wallet_path]
  else [])

/-- The `subprocess.run` of `_import_wallet` (timeout 60). -/
def import_wallet_run (cfg : Config) (src : String) : RunSpec :=
  ⟨import_cmd cfg src, some 60, false⟩

/-- Command of `_export_wallet` of `nock2.py`. -/
def export_cmd (cfg : Config) (out : String) : List String :=
  [cfg.wallet_binary, "export-keys", "--wallet", cfg.wallet_path,
   "--output", out]

/-- The `subprocess.run` of `_export_wallet` (timeout 30). -/
def export_wallet_run (cfg : Config) (out : String) : RunSpec :=
  ⟨export_cmd cfg out, some 30, false⟩

/-- Command of `_refresh_balance` of `nock2.py`. -/
def refresh_cmd (cfg : Config) : List String :=
  build_base_command cfg true ++ ["show-balance"]

/-- The `subprocess.run` of `_refresh_balance` (timeout 30). -/
def refresh_balance_run (cfg : Config) : RunSpec :=
  ⟨refresh_cmd cfg, some 30, false⟩

/-- Command of `_load_notes` of `nock2.py`. -/
def load_notes_cmd (cfg : Config) (watch_only : Bool) : List String :=
  build_base_command cfg true ++ ["list-notes"] ++
  (if watch_only then ["--include-watch-only"] else [])

/-- The `subprocess.run` of `_load_notes` (timeout 30). -/
def load_notes_run (cfg : Config) (watch_only : Bool) : RunSpec :=
  ⟨load_notes_cmd cfg watch_only, some 30, false⟩

/-- Command of `_get_block` of `nock2.py`. -/
def get_block_cmd (cfg : Config) (height : Nat) : List String :=
  build_base_command cfg false ++ ["get-block", "--height", toString height]

/-- The `subprocess.run` of `_get_block` (timeout 30). -/
def get_block_run (cfg : Config) (height : Nat) : RunSpec :=
  ⟨get_block_cmd cfg height, some 30, false⟩

/-- Python `int()` truncation toward zero of an exact rational. -/
def pyTrunc (q : ℚ) : ℤ :=
  if 0 ≤ q then ⌊q⌋ else ⌈q⌉

/-- The NOCK-to-nicks conversion of `_send_transaction` of `nock2.py`:
`amount_nicks = int(float(amount) * 65536)`, with the parsed floating-point
amount modelled by the exact rational it denotes (multiplication by the
power of two 65536 and `int` truncation are exact on doubles). -/
def amount_nicks (amount : ℚ) : ℤ :=
  pyTrunc (amount * 65536)

end nock2

namespace nock2

/-- `NockchainWalletGUI._check_binary` of `nock2.py` as an effect trace. -/
def check_binary_trace (cfg : Config) (o : RunOutcome) : List Effect :=
  Effect.runCmd (check_binary_run cfg) ::
  match o with
  | .completed rc _ _ =>
    if rc = 0 then
      [.log ("✓ Binaire trouvé: " ++ cfg.wallet_binary) "success"]
    else [.log "⚠ Binaire non fonctionnel" "warning"]
  | .fileNotFound =>
    [.log ("✗ Binaire non trouvé: " ++ cfg.wallet_binary) "error",
     .dialog "warning" "Binaire manquant"
       ("Le binaire \x27" ++ cfg.wallet_binary ++
        "\x27 est introuvable.\nVeuillez le configurer dans l\x27onglet Paramètres.")]
  | .timedOut =>
    [.log ("✗ Erreur: " ++ timeoutExnStr (check_binary_run cfg).cmd 5) "error"]
  | .raised m => [.log ("✗ Erreur: " ++ m) "error"]

/-- `NockchainWalletGUI._refresh_balance` of `nock2.py` as an effect
trace. -/
def refresh_balance_trace (cfg : Config) (o : RunOutcome) : List Effect :=
  if cfg.wallet_imported = false then
    [.log "⚠ Veuillez charger un wallet d\x27abord" "warning"]
  else
    .log ("$ " ++ joinSpace (refresh_cmd cfg)) "command" ::
    .runCmd (refresh_balance_run cfg) ::
    match o with
    | .completed rc out err =>
      if rc = 0 then
        match parse_balance out with
        | some b =>
          [.setText "balance_label" b.formatted,
           .log ("💰 Balance: " ++ b.formatted) "success"] ++
          (match parse_wallet_version out with
           | some v => [.log ("📦 Version: " ++ v) "info"]
           | none => []) ++
          (match parse_height out with
           | some h =>
             if h ≠ 0 then [.log ("📊 Hauteur: " ++ groupDigits h) "info"]
             else []
           | none => [])
        | none => [.log "⚠ Impossible de parser le solde" "warning"]
      else [.log ("✗ Erreur: " ++ extract_error err) "error"]
    | .timedOut =>
      [.log "✗ Timeout lors de la récupération du solde" "error"]
    | .fileNotFound =>
      [.log ("✗ Erreur: " ++ fnfStr cfg.wallet_binary) "error"]
    | .raised m => [.log ("✗ Erreur: " ++ m) "error"]

/-- `NockchainWalletGUI._load_notes` of `nock2.py` as an effect trace. -/
def load_notes_trace (cfg : Config) (watch_only : Bool) (o : RunOutcome) :
    List Effect :=
  if cfg.wallet_imported = false then []
  else
    .log ("$ " ++ joinSpace (load_notes_cmd cfg watch_only)) "command" ::
    .runCmd (load_notes_run cfg watch_only) ::
    match o with
    | .completed rc out err =>
      if rc = 0 then
        let notes := parse_notes out
        .table notes ::
        (if notes.isEmpty then [.log "ℹ Aucune note trouvée" "info"]
         else
           [.log ("📝 " ++ toString notes.length ++ " note(s) trouvée(s)")
             "success"])
      else [.log ("✗ Erreur: " ++ extract_error err) "error"]
    | .timedOut => [.log "✗ Timeout lors du chargement des notes" "error"]
    | .fileNotFound =>
      [.log ("✗ Erreur: " ++ fnfStr cfg.wallet_binary) "error"]
    | .raised m => [.log ("✗ Erreur: " ++ m) "error"]

/-- `NockchainWalletGUI._get_block` of `nock2.py` as an effect trace (the
spin box enforces `height ≥ 0`; `height ≤ 0` is rejected with a warning
dialog before any command is launched; there is no dedicated timeout
handler, so a timeout is caught by the generic `except`). -/
def get_block_trace (cfg : Config) (height : Nat) (o : RunOutcome) :
    List Effect :=
  if height = 0 then
    [.dialog "warning" "Attention" "Veuillez entrer une hauteur valide"]
  else
    .log ("$ " ++ joinSpace (get_block_cmd cfg height)) "command" ::
    .runCmd (get_block_run cfg height) ::
    match o with
    | .completed rc out err =>
      if rc = 0 then
        [.log ("📦 Bloc " ++ toString height ++ ":") "success",
         .log out "info"]
      else [.log ("✗ Erreur: " ++ extract_error err) "error"]
    | .timedOut =>
      [.log ("✗ Erreur: " ++ timeoutExnStr (get_block_cmd cfg height) 30)
        "error"]
    | .fileNotFound =>
      [.log ("✗ Erreur: " ++ fnfStr cfg.wallet_binary) "error"]
    | .raised m => [.log ("✗ Erreur: " ++ m) "error"]

/-- `NockchainWalletGUI._import_wallet` of `nock2.py` as an effect trace
(`src` is the file chosen in the dialog, `walletExists` tells whether
`~/.nockchain/wallet.wallet` exists afterwards, `home` is the user's home
directory). -/
def import_wallet_trace (cfg : Config) (src : Option String)
    (walletExists : Bool) (home : String) (o : RunOutcome) : List Effect :=
  match src with
  | none => []
  | some src =>
    .log ("$ " ++ joinSpace (import_cmd cfg src)) "command" ::
    .runCmd (import_wallet_run cfg src) ::
    match o with
    | .completed rc _ err =>
      if rc = 0 then
        if walletExists then
          let dw := home ++ "/.nockchain/wallet.wallet"
          [.saveCfg,
           .setText "wallet_path_label" dw,
           .setStyle "wallet_path_label" "color: #4CAF50;",
           .statusMsg "Wallet: wallet.wallet",
           .log "Wallet importé: wallet.wallet" "success",
           .dialog "information" "Succès"
             ("Wallet importé avec succès!\nFichier: " ++ dw)]
        else [.log "Import réussi mais aucun wallet trouvé" "warning"]
      else
        [.log ("✗ Erreur: " ++ extract_error err) "error",
         .dialog "critical" "Erreur"
           ("Échec de l\x27import:\n" ++ extract_error err)]
    | .timedOut =>
      [.log ("✗ Erreur: " ++ timeoutExnStr (import_cmd cfg src) 60) "error",
       .dialog "critical" "Erreur"
         ("Erreur inattendue:\n" ++ timeoutExnStr (import_cmd cfg src) 60)]
    | .fileNotFound =>
      [.log ("✗ Erreur: " ++ fnfStr cfg.wallet_binary) "error",
       .dialog "critical" "Erreur"
         ("Erreur inattendue:\n" ++ fnfStr cfg.wallet_binary)]
    | .raised m =>
      [.log ("✗ Erreur: " ++ m) "error",
       .dialog "critical" "Erreur" ("Erreur inattendue:\n" ++ m)]

/-- `NockchainWalletGUI._export_wallet` of `nock2.py` as an effect trace. -/
def export_wallet_trace (cfg : Config) (outFile : Option String)
    (o : RunOutcome) : List Effect :=
  if cfg.wallet_imported = false then
    [.dialog "warning" "Attention" "Aucun wallet chargé à exporter"]
  else
    match outFile with
    | none => []
    | some out =>
      .log ("$ " ++ joinSpace (export_cmd cfg out)) "command" ::
      .runCmd (export_wallet_run cfg out) ::
      match o with
      | .completed rc _ err =>
        if rc = 0 then
          [.log ("✓ Export réussi: " ++ baseName out) "success",
           .dialog "information" "Succès" ("Wallet exporté vers:\n" ++ out)]
        else
          [.log ("✗ Erreur: " ++ extract_error err) "error",
           .dialog "critical" "Erreur"
             ("Échec de l\x27export:\n" ++ extract_error err)]
      | .timedOut =>
        [.log ("✗ Erreur: " ++ timeoutExnStr (export_cmd cfg out) 30) "error",
         .dialog "critical" "Erreur"
           ("Erreur inattendue:\n" ++ timeoutExnStr (export_cmd cfg out) 30)]
      | .fileNotFound =>
        [.log ("✗ Erreur: " ++ fnfStr cfg.wallet_binary) "error",
         .dialog "critical" "Erreur"
           ("Erreur inattendue:\n" ++ fnfStr cfg.wallet_binary)]
      | .raised m =>
        [.log ("✗ Erreur: " ++ m) "error",
         .dialog "critical" "Erreur" ("Erreur inattendue:\n" ++ m)]

end nock2

/-! ## `nockwallet-v0.1.1.py`: configuration, commands, refresh handler -/

namespace v011

/-- The in-memory configuration of `nockwallet-v0.1.1.py` (the keys of
`default_config`; it has no `last_used_directory`). -/
structure Config where
  wallet_binary : String
  wallet_path : String
  wallet_imported : Bool
  client_type : String
  public_server : String
  private_port : String
deriving DecidableEq

/-- `NockchainWalletGUI._build_base_command` of `nockwallet-v0.1.1.py`. -/
def build_base_command (cfg : Config) : List String :=
  [cfg.wallet_binary] ++
  (if cfg.client_type = "public" then
    ["--client", "public"] ++
    (if cfg.public_server ≠ "" &&
        cfg.public_server ≠ "https://nockchain-api.zorp.io" then
      ["--public-grpc-server-addr", cfg.public_server]
    else [])
  else
    ["--client", "private"] ++
    (if cfg.private_port ≠ "" && cfg.private_port ≠ "50051" then
      ["--private-grpc-server-port", cfg.private_port]
    else []))

/-- The `subprocess.run` of `_check_binary` of v0.1.1 (timeout 5). -/
def check_binary_run (cfg : Config) : RunSpec :=
  ⟨[cfg.wallet_binary, "--help"], some 5, false⟩

/-- The `subprocess.run` of `_import_wallet` of v0.1.1 (timeout 60). -/
def import_wallet_run (cfg : Config) (src : String) : RunSpec :=
  ⟨build_base_command cfg ++ ["import-keys", "--file", src], some 60, false⟩

/-- The `subprocess.run` of `_export_wallet` of v0.1.1 (timeout 30). -/
def export_wallet_run (cfg : Config) (out : String) : RunSpec :=
  ⟨build_base_command cfg ++ ["export-keys", "--output", out], some 30, false⟩

/-- Command of `_refresh_balance` of v0.1.1. -/
def refresh_cmd (cfg : Config) : List String :=
  build_base_command cfg ++ ["show-balance"]

/-- The `subprocess.run` of `_refresh_balance` of v0.1.1 (timeout 30). -/
def refresh_balance_run (cfg : Config) : RunSpec :=
  ⟨refresh_cmd cfg, some 30, false⟩

/-- Python `f"{h[:8]}...{h[-8:]}"` used for the block hash display. -/
def shortHash (b : String) : String :=
  String.mk (b.data.take 8) ++ "..." ++
  String.mk (b.data.drop (b.data.length - 8))

/-- `NockchainWalletGUI._refresh_balance` of `nockwallet-v0.1.1.py` as an
effect trace. -/
def refresh_balance_trace (cfg : Config) (o : RunOutcome) : List Effect :=
  if cfg.wallet_imported = false then
    [.log "⚠ Veuillez importer un wallet d\x27abord" "warning"]
  else
    .log ("$ " ++ joinSpace (refresh_cmd cfg)) "command" ::
    .runCmd (refresh_balance_run cfg) ::
    match o with
    | .completed rc out err =>
      if rc = 0 then
        match parse_balance out with
        | some b =>
          [.setText "balance_label" b.formatted,
           .log ("💰 Balance: " ++ b.formatted) "success"] ++
          (match parse_number_of_notes out with
           | some n => [.log ("📝 Nombre de notes: " ++ toString n) "info"]
           | none => []) ++
          (match parse_wallet_version out with
           | some v =>
             if v ≠ "" then [.log ("📦 Version wallet: " ++ v) "info"]
             else []
           | none => []) ++
          (match parse_height out with
           | some h =>
             if h ≠ 0 then [.log ("📊 Hauteur: " ++ groupDigits h) "info"]
             else []
           | none => []) ++
          (match parse_block_hash out with
           | some bh => [.log ("🔗 Bloc: " ++ shortHash bh) "info"]
           | none => []) ++
          (match extract_success_message out with
           | some m => [.log m "success"]
           | none => [])
        | none =>
          [.log "⚠ Impossible de parser le solde" "warning",
           .log (clean_output out) "info"]
      else [.log ("✗ Erreur: " ++ extract_error err) "error"]
    | .timedOut =>
      [.log "✗ Timeout lors de la récupération du solde" "error"]
    | .fileNotFound =>
      [.log ("✗ Erreur: " ++ fnfStr cfg.wallet_binary) "error"]
    | .raised m => [.log ("✗ Erreur: " ++ m) "error"]

end v011

/-! ## The JSON configuration file

`json.dump` / `json.load` of the Python standard library, modelled on the
sublanguage the configuration uses: a flat object whose values are strings
and booleans. The encoder follows CPython's `json.encoder` (`ensure_ascii`
escaping, `\uXXXX` with surrogate pairs above the BMP, `indent` layout); the
decoder models `json.load` restricted to this grammar. -/

/-- A JSON-representable configuration value: string or boolean. -/
inductive CVal where
  | s (v : String)
  | b (v : Bool)
deriving DecidableEq

/-- Lower-case hexadecimal digit. -/
def hexDigitChar : Nat → Char
  | 0 => '0' | 1 => '1' | 2 => '2' | 3 => '3' | 4 => '4'
  | 5 => '5' | 6 => '6' | 7 => '7' | 8 => '8' | 9 => '9'
  | 10 => 'a' | 11 => 'b' | 12 => 'c' | 13 => 'd' | 14 => 'e' | 15 => 'f'
  | _ => '0'

/-- Hexadecimal digit value (the decoder also accepts upper case). -/
def fromHexDigit (c : Char) : Option Nat :=
  let n := c.toNat
  if isDigitC c then some (n - 48)
  else if 'a' ≤ c && c ≤ 'f' then some (n - 87)
  else if 'A' ≤ c && c ≤ 'F' then some (n - 55)
  else none

/-- Four hexadecimal digits of `n < 0x10000`, most significant first. -/
def hex4 (n : Nat) : Chars :=
  [hexDigitChar (n / 4096 % 16), hexDigitChar (n / 256 % 16),
   hexDigitChar (n / 16 % 16), hexDigitChar (n % 16)]

/-- CPython `json` escaping of one character (`ea` is `ensure_ascii`):
quote, backslash and the five shorthand controls get two-character escapes,
other controls get `\uXXXX`, and with `ensure_ascii` every character outside
printable ASCII gets `\uXXXX`, using a surrogate pair above the BMP. -/
def escChar (ea : Bool) (c : Char) : Chars :=
  if c = '"' then ['\\', '"']
  else if c = '\\' then ['\\', '\\']
  else if c = '\n' then ['\\', 'n']
  else if c = '\x0d' then ['\\', 'r']
  else if c = '\t' then ['\\', 't']
  else if c = '\x08' then ['\\', 'b']
  else if c = '\x0c' then ['\\', 'f']
  else if c.toNat < 32 then '\\' :: 'u' :: hex4 c.toNat
  else if ea = true ∧ 126 < c.toNat then
    if c.toNat < 65536 then '\\' :: 'u' :: hex4 c.toNat
    else
      '\\' :: 'u' :: hex4 (55296 + (c.toNat - 65536) / 1024) ++
      '\\' :: 'u' :: hex4 (56320 + (c.toNat - 65536) % 1024)
  else [c]

/-- Escape every character of a string body. -/
def escBody (ea : Bool) : Chars → Chars
  | [] => []
  | c :: rest => escChar ea c ++ escBody ea rest

/-- A JSON string literal. -/
def dumpStr (ea : Bool) (s : Chars) : Chars :=
  '"' :: escBody ea s ++ ['"']

/-- A JSON value of the configuration. -/
def dumpVal (ea : Bool) : CVal → Chars
  | .s v => dumpStr ea v.data
  | .b true => ['t', 'r', 'u', 'e']
  | .b false => ['f', 'a', 'l', 's', 'e']

/-- `n` spaces. -/
def spacesC (n : Nat) : Chars :=
  List.replicate n ' '

/-- One `"key": value` item at indentation `ind`. -/
def dumpEntry (ea : Bool) (ind : Nat) (kv : String × CVal) : Chars :=
  spacesC ind ++ dumpStr ea kv.1.data ++ ':' :: ' ' :: dumpVal ea kv.2

/-- The remaining items and the closing brace. -/
def dumpRest (ea : Bool) (ind : Nat) : List (String × CVal) → Chars
  | [] => ['\n', '\x7d']
  | e :: rest => ',' :: '\n' :: dumpEntry ea ind e ++ dumpRest ea ind rest

/-- CPython `json.dump(obj, f, indent=ind)` of a flat object. -/
def dumpObj (ea : Bool) (ind : Nat) : List (String × CVal) → Chars
  | [] => ['\x7b', '\x7d']
  | e :: rest => '\x7b' :: '\n' :: dumpEntry ea ind e ++ dumpRest ea ind rest

/-- JSON whitespace. -/
def isJsonWs (c : Char) : Bool :=
  c = ' ' || c = '\t' || c = '\n' || c = '\x0d'

/-- Skip JSON whitespace. -/
def skipWs (s : Chars) : Chars :=
  s.dropWhile isJsonWs

/-- Read four hexadecimal digits. -/
def parseHex4 : Chars → Option (Nat × Chars)
  | a :: b :: c :: d :: rest =>
    (fromHexDigit a).bind fun x =>
    (fromHexDigit b).bind fun y =>
    (fromHexDigit c).bind fun z =>
    (fromHexDigit d).map fun w =>
    (((x * 16 + y) * 16 + z) * 16 + w, rest)
  | _ => none

/-- Decode the low half of a surrogate pair (after `\uHHHH\u`, with `n` the
value of the high half). -/
def parseLowSurrogate (n : Nat) (r2 : Chars) : Option (Char × Chars) :=
  (parseHex4 r2).bind fun p =>
    if 56320 ≤ p.1 ∧ p.1 ≤ 57343 then
      some (Char.ofNat (65536 + (n - 55296) * 1024 + (p.1 - 56320)), p.2)
    else none

/-- Decode the rest of a `\uHHHH` escape once the four digits are read. -/
def parseAfterHex4 (n : Nat) (r1 : Chars) : Option (Char × Chars) :=
  if 55296 ≤ n ∧ n ≤ 56319 then
    match r1 with
    | '\\' :: 'u' :: r2 => parseLowSurrogate n r2
    | _ => none
  else if 56320 ≤ n ∧ n ≤ 57343 then none
  else some (Char.ofNat n, r1)

/-- Decode a `\u` escape: four hexadecimal digits, combining surrogate
pairs; a lone surrogate is out of the modelled sublanguage. -/
def parseUEsc (r : Chars) : Option (Char × Chars) :=
  (parseHex4 r).bind fun p => parseAfterHex4 p.1 p.2

/-- Decode one escape sequence (after the backslash). -/
def parseEsc : Chars → Option (Char × Chars)
  | [] => none
  | e :: r =>
    if e = '"' then some ('"', r)
    else if e = '\\' then some ('\\', r)
    else if e = '/' then some ('/', r)
    else if e = 'b' then some ('\x08', r)
    else if e = 'f' then some ('\x0c', r)
    else if e = 'n' then some ('\n', r)
    else if e = 'r' then some ('\x0d', r)
    else if e = 't' then some ('\t', r)
    else if e = 'u' then parseUEsc r
    else none

/-- Read a string body up to the closing quote (`fuel` bounds the number of
decoded characters; one unit is spent per character). -/
def parseStrBodyF : Nat → Chars → Option (Chars × Chars)
  | _, [] => none
  | fuel, c :: r =>
    if c = '"' then some ([], r)
    else
      match fuel with
      | 0 => none
      | fuel + 1 =>
        if c = '\\' then
          match parseEsc r with
          | some (d, r1) =>
            match parseStrBodyF fuel r1 with
            | some (cs, r2) => some (d :: cs, r2)
            | none => none
          | none => none
        else
          match parseStrBodyF fuel r with
          | some (cs, r2) => some (c :: cs, r2)
          | none => none

/-- Read a string body, with enough fuel for the whole input. -/
def parseStrBody (s : Chars) : Option (Chars × Chars) :=
  parseStrBodyF s.length s

/-- Read a value of the configuration sublanguage. -/
def parseVal (s : Chars) : Option (CVal × Chars) :=
  match s with
  | '"' :: r => (parseStrBody r).map fun p => (CVal.s (String.mk p.1), p.2)
  | 't' :: 'r' :: 'u' :: 'e' :: r => some (CVal.b true, r)
  | 'f' :: 'a' :: 'l' :: 's' :: 'e' :: r => some (CVal.b false, r)
  | _ => none

/-- Read one `"key": value` item. -/
def parseEntry (s : Chars) : Option ((String × CVal) × Chars) :=
  match skipWs s with
  | '"' :: r =>
    (parseStrBody r).bind fun pk =>
    match skipWs pk.2 with
    | ':' :: r2 =>
      (parseVal (skipWs r2)).map fun pv => ((String.mk pk.1, pv.1), pv.2)
    | _ => none
  | _ => none

/-- Read a non-empty comma-separated item list up to the closing brace
(`fuel` bounds the number of items). -/
def parseEntriesF : Nat → Chars → Option (List (String × CVal) × Chars)
  | fuel, s =>
    (parseEntry s).bind fun er =>
      let r := skipWs er.2
      if r.head? = some ',' then
        match fuel with
        | 0 => none
        | fuel + 1 =>
          (parseEntriesF fuel r.tail).map fun p => (er.1 :: p.1, p.2)
      else if r.head? = some '\x7d' then some ([er.1], r.tail)
      else none

/-- Read a whole configuration document (nothing but whitespace may
follow). -/
def parseTopObj (s : Chars) : Option (List (String × CVal)) :=
  let r0 := skipWs s
  if r0.head? = some '\x7b' then
    let r := skipWs r0.tail
    if r.head? = some '\x7d' then
      if (skipWs r.tail).isEmpty then some [] else none
    else
      (parseEntriesF s.length r0.tail).bind fun p =>
        if (skipWs p.2).isEmpty then some p.1 else none
  else none

/-- `json.load` of a configuration file. -/
def jsonLoadConfig (content : String) : Option (List (String × CVal)) :=
  parseTopObj content.data

/-- Python `dict.__setitem__`: replace in place or append. -/
def updOne : List (String × CVal) → String → CVal → List (String × CVal)
  | [], k, v => [(k, v)]
  | (k2, v2) :: rest, k, v =>
    if k2 = k then (k, v) :: rest else (k2, v2) :: updOne rest k v

/-- Python `dict.update` / `{**d, **l}` (insertion-order semantics). -/
def dictUpdate (d l : List (String × CVal)) : List (String × CVal) :=
  l.foldl (fun acc kv => updOne acc kv.1 kv.2) d

/-- Dictionary lookup. -/
def lookupKey (k : String) : List (String × CVal) → Option CVal
  | [] => none
  | (k2, v) :: rest => if k2 = k then some v else lookupKey k rest

namespace nock2

/-- `DEFAULT_CONFIG` of `nock2.py` (`home` is `str(Path.home())`). -/
def DEFAULT_CONFIG (home : String) : List (String × CVal) :=
  [("wallet_binary", .s "nockchain-wallet"),
   ("wallet_path", .s ""),
   ("wallet_imported", .b false),
   ("client_type", .s "public"),
   ("public_server", .s "https://nockchain-api.zorp.io"),
   ("private_port", .s "50051"),
   ("last_used_directory", .s home)]

/-- `NockchainWalletGUI._save_config` of `nock2.py`: the file content
written by `json.dump(config, f, indent=2)` (`ensure_ascii` defaults to
true). -/
def save_config (c : List (String × CVal)) : String :=
  String.mk (dumpObj true 2 c)

/-- The module-level configuration load of `nock2.py`: start from
`DEFAULT_CONFIG.copy()` and `update` it with the parsed file when the file
exists and parses (`file = none` models a missing file; a parse error keeps
the defaults). -/
def load_config (home : String) (file : Option String) :
    List (String × CVal) :=
  match file with
  | none => DEFAULT_CONFIG home
  | some content =>
    match jsonLoadConfig content with
    | some loaded => dictUpdate (DEFAULT_CONFIG home) loaded
    | none => DEFAULT_CONFIG home

end nock2

namespace v011

/-- `default_config` of `nockwallet-v0.1.1.py` (six keys; no
`last_used_directory`). -/
def default_config : List (String × CVal) :=
  [("wallet_binary", .s "nockchain-wallet"),
   ("wallet_path", .s ""),
   ("wallet_imported", .b false),
   ("client_type", .s "public"),
   ("public_server", .s "https://nockchain-api.zorp.io"),
   ("private_port", .s "50051")]

/-- `save_config` of `nockwallet-v0.1.1.py`: `json.dump(config, f,
indent=4, ensure_ascii=False)`. -/
def save_config (c : List (String × CVal)) : String :=
  String.mk (dumpObj false 4 c)

/-- `load_config` of `nockwallet-v0.1.1.py`: `{**default_config,
**config_data}` when the file exists and parses, otherwise
`default_config.copy()`. -/
def load_config (file : Option String) : List (String × CVal) :=
  match file with
  | none => default_config
  | some content =>
    match jsonLoadConfig content with
    | some loaded => dictUpdate default_config loaded
    | none => default_config

end v011

/-! ## Round-trip of the JSON configuration encoding -/

theorem stringMk_data (s : String) : String.mk s.data = s := by
  cases s
  rfl

theorem fromHexDigit_hexDigitChar (k : Nat) (h : k < 16) :
    fromHexDigit (hexDigitChar k) = some k := by
  interval_cases k <;> decide

theorem parseHex4_hex4 (n : Nat) (rest : Chars) (h : n < 65536) :
    parseHex4 (hex4 n ++ rest) = some (n, rest) := by
  have h1 : n / 4096 % 16 < 16 := Nat.mod_lt _ (by norm_num)
  have h2 : n / 256 % 16 < 16 := Nat.mod_lt _ (by norm_num)
  have h3 : n / 16 % 16 < 16 := Nat.mod_lt _ (by norm_num)
  have h4 : n % 16 < 16 := Nat.mod_lt _ (by norm_num)
  simp only [hex4, List.cons_append, List.nil_append, parseHex4,
    fromHexDigit_hexDigitChar _ h1, fromHexDigit_hexDigitChar _ h2,
    fromHexDigit_hexDigitChar _ h3, fromHexDigit_hexDigitChar _ h4,
    Option.bind_some, Option.map_some]
  have key : ((n / 4096 % 16 * 16 + n / 256 % 16) * 16 + n / 16 % 16) * 16 +
      n % 16 = n := by omega
  show some (((n / 4096 % 16 * 16 + n / 256 % 16) * 16 + n / 16 % 16) * 16 +
      n % 16, rest) = some (n, rest)
  rw [key]

theorem char_valid_nat (c : Char) :
    c.toNat < 55296 ∨ (57343 < c.toNat ∧ c.toNat < 1114112) := by
  have h := c.valid
  unfold UInt32.isValidChar Nat.isValidChar at h
  exact h

theorem dropLit_append (lit rest : Chars) :
    dropLit lit (lit ++ rest) = some rest := by
  induction lit with
  | nil => simp [dropLit]
  | cons a t ih => simp [dropLit, ih]

theorem parseEsc_u (r : Chars) : parseEsc ('u' :: r) = parseUEsc r := by
  simp [parseEsc]

theorem parseUEsc_hex4 (n : Nat) (rest : Chars) (hn : n < 65536) :
    parseUEsc (hex4 n ++ rest) = parseAfterHex4 n rest := by
  unfold parseUEsc
  rw [parseHex4_hex4 _ _ hn]
  rfl

theorem parseAfterHex4_high (n : Nat) (r2 : Chars)
    (hn1 : 55296 ≤ n) (hn2 : n ≤ 56319) :
    parseAfterHex4 n ('\\' :: 'u' :: r2) = parseLowSurrogate n r2 := by
  unfold parseAfterHex4
  rw [if_pos ⟨hn1, hn2⟩]
  rfl

theorem parseAfterHex4_bmp (n : Nat) (r1 : Chars)
    (hs1 : ¬(55296 ≤ n ∧ n ≤ 56319)) (hs2 : ¬(56320 ≤ n ∧ n ≤ 57343)) :
    parseAfterHex4 n r1 = some (Char.ofNat n, r1) := by
  unfold parseAfterHex4
  rw [if_neg hs1, if_neg hs2]

theorem parseLowSurrogate_hex4 (n m : Nat) (rest : Chars) (hm : m < 65536)
    (h1 : 56320 ≤ m) (h2 : m ≤ 57343) :
    parseLowSurrogate n (hex4 m ++ rest) =
      some (Char.ofNat (65536 + (n - 55296) * 1024 + (m - 56320)), rest) := by
  unfold parseLowSurrogate
  rw [parseHex4_hex4 _ _ hm]
  show (if 56320 ≤ m ∧ m ≤ 57343 then
    some (Char.ofNat (65536 + (n - 55296) * 1024 + (m - 56320)), rest)
    else none) = _
  rw [if_pos ⟨h1, h2⟩]

theorem parseEsc_u_bmp (c : Char) (rest : Chars) (hn : c.toNat < 65536)
    (hs1 : ¬(55296 ≤ c.toNat ∧ c.toNat ≤ 56319))
    (hs2 : ¬(56320 ≤ c.toNat ∧ c.toNat ≤ 57343)) :
    parseEsc (('u' :: hex4 c.toNat) ++ rest) = some (c, rest) := by
  rw [List.cons_append, parseEsc_u, parseUEsc_hex4 _ _ hn,
    parseAfterHex4_bmp _ _ hs1 hs2, Char.ofNat_toNat]

theorem escChar_ctrl_eq (ea : Bool) (c : Char)
    (h1 : ¬c = '"') (h2 : ¬c = '\\') (h3 : ¬c = '\n') (h4 : ¬c = '\x0d')
    (h5 : ¬c = '\t') (h6 : ¬c = '\x08') (h7 : ¬c = '\x0c')
    (h8 : c.toNat < 32) :
    escChar ea c = '\\' :: ('u' :: hex4 c.toNat) := by
  simp [escChar, h1, h2, h3, h4, h5, h6, h7, h8]

theorem escChar_bmp_eq (ea : Bool) (c : Char)
    (h1 : ¬c = '"') (h2 : ¬c = '\\') (h3 : ¬c = '\n') (h4 : ¬c = '\x0d')
    (h5 : ¬c = '\t') (h6 : ¬c = '\x08') (h7 : ¬c = '\x0c')
    (h8 : ¬c.toNat < 32) (h9a : ea = true) (h9b : 126 < c.toNat)
    (h10 : c.toNat < 65536) :
    escChar ea c = '\\' :: ('u' :: hex4 c.toNat) := by
  simp [escChar, h1, h2, h3, h4, h5, h6, h7, h8, h9a, h9b, h10]

theorem escChar_astral_eq (ea : Bool) (c : Char)
    (h1 : ¬c = '"') (h2 : ¬c = '\\') (h3 : ¬c = '\n') (h4 : ¬c = '\x0d')
    (h5 : ¬c = '\t') (h6 : ¬c = '\x08') (h7 : ¬c = '\x0c')
    (h8 : ¬c.toNat < 32) (h9a : ea = true) (h9b : 126 < c.toNat)
    (h10 : ¬c.toNat < 65536) :
    escChar ea c = '\\' :: ('u' :: (hex4 (55296 + (c.toNat - 65536) / 1024) ++
      '\\' :: 'u' :: hex4 (56320 + (c.toNat - 65536) % 1024))) := by
  simp [escChar, h1, h2, h3, h4, h5, h6, h7, h8, h9a, h9b, h10]

theorem parseEsc_u_astral (c : Char) (rest : Chars)
    (h10 : ¬c.toNat < 65536) :
    parseEsc (('u' :: (hex4 (55296 + (c.toNat - 65536) / 1024) ++
      '\\' :: 'u' :: hex4 (56320 + (c.toNat - 65536) % 1024))) ++ rest) =
      some (c, rest) := by
  have hv := char_valid_nat c
  have hlt : c.toNat < 1114112 := by omega
  have hm : (c.toNat - 65536) % 1024 < 1024 := Nat.mod_lt _ (by norm_num)
  have hq : (c.toNat - 65536) / 1024 ≤ 1023 := by omega
  have hi1 : 55296 + (c.toNat - 65536) / 1024 < 65536 := by omega
  have hi2 : 56320 + (c.toNat - 65536) % 1024 < 65536 := by omega
  have hp1a : 55296 ≤ 55296 + (c.toNat - 65536) / 1024 := by omega
  have hp1b : 55296 + (c.toNat - 65536) / 1024 ≤ 56319 := by omega
  have hp2a : 56320 ≤ 56320 + (c.toNat - 65536) % 1024 := by omega
  have hp2b : 56320 + (c.toNat - 65536) % 1024 ≤ 57343 := by omega
  rw [List.cons_append, parseEsc_u]
  rw [show (hex4 (55296 + (c.toNat - 65536) / 1024) ++
      '\\' :: 'u' :: hex4 (56320 + (c.toNat - 65536) % 1024)) ++ rest =
      hex4 (55296 + (c.toNat - 65536) / 1024) ++
      ('\\' :: 'u' :: (hex4 (56320 + (c.toNat - 65536) % 1024) ++ rest))
    by simp]
  rw [parseUEsc_hex4 _ _ hi1]
  rw [parseAfterHex4_high _ _ hp1a hp1b]
  rw [parseLowSurrogate_hex4 _ _ _ hi2 hp2a hp2b]
  have key : 65536 + (55296 + (c.toNat - 65536) / 1024 - 55296) * 1024 +
      (56320 + (c.toNat - 65536) % 1024 - 56320) = c.toNat := by omega
  rw [key, Char.ofNat_toNat]

theorem escChar_plain_eq (ea : Bool) (c : Char)
    (h1 : ¬c = '"') (h2 : ¬c = '\\') (h3 : ¬c = '\n') (h4 : ¬c = '\x0d')
    (h5 : ¬c = '\t') (h6 : ¬c = '\x08') (h7 : ¬c = '\x0c')
    (h8 : ¬c.toNat < 32) (h9 : ¬(ea = true ∧ 126 < c.toNat)) :
    escChar ea c = [c] := by
  simp [escChar, h1, h2, h3, h4, h5, h6, h7, h8, h9]

theorem escChar_spec (ea : Bool) (c : Char) :
    (escChar ea c = [c] ∧ c ≠ '"' ∧ c ≠ '\\') ∨
    (∃ t, escChar ea c = '\\' :: t ∧
      ∀ rest, parseEsc (t ++ rest) = some (c, rest)) := by
  by_cases h1 : c = '"'
  · subst h1
    exact Or.inr ⟨['"'], by simp [escChar], fun rest => by simp [parseEsc]⟩
  by_cases h2 : c = '\\'
  · subst h2
    exact Or.inr ⟨['\\'], by simp [escChar], fun rest => by simp [parseEsc]⟩
  by_cases h3 : c = '\n'
  · subst h3
    exact Or.inr ⟨['n'], by simp [escChar], fun rest => by simp [parseEsc]⟩
  by_cases h4 : c = '\x0d'
  · subst h4
    exact Or.inr ⟨['r'], by simp [escChar], fun rest => by simp [parseEsc]⟩
  by_cases h5 : c = '\t'
  · subst h5
    exact Or.inr ⟨['t'], by simp [escChar], fun rest => by simp [parseEsc]⟩
  by_cases h6 : c = '\x08'
  · subst h6
    exact Or.inr ⟨['b'], by simp [escChar], fun rest => by simp [parseEsc]⟩
  by_cases h7 : c = '\x0c'
  · subst h7
    exact Or.inr ⟨['f'], by simp [escChar], fun rest => by simp [parseEsc]⟩
  by_cases h8 : c.toNat < 32
  · exact Or.inr ⟨'u' :: hex4 c.toNat,
      escChar_ctrl_eq ea c h1 h2 h3 h4 h5 h6 h7 h8,
      fun rest => parseEsc_u_bmp c rest (by omega) (by omega) (by omega)⟩
  by_cases h9 : ea = true ∧ 126 < c.toNat
  · by_cases h10 : c.toNat < 65536
    · have hv := char_valid_nat c
      exact Or.inr ⟨'u' :: hex4 c.toNat,
        escChar_bmp_eq ea c h1 h2 h3 h4 h5 h6 h7 h8 h9.1 h9.2 h10,
        fun rest => parseEsc_u_bmp c rest h10 (by omega) (by omega)⟩
    · exact Or.inr ⟨'u' :: (hex4 (55296 + (c.toNat - 65536) / 1024) ++
        '\\' :: 'u' :: hex4 (56320 + (c.toNat - 65536) % 1024)),
        escChar_astral_eq ea c h1 h2 h3 h4 h5 h6 h7 h8 h9.1 h9.2 h10,
        fun rest => parseEsc_u_astral c rest h10⟩
  · exact Or.inl ⟨escChar_plain_eq ea c h1 h2 h3 h4 h5 h6 h7 h8 h9, h1, h2⟩

theorem parseStrBodyF_cons_plain (f : Nat) (c : Char) (Y : Chars)
    (hq : ¬c = '"') (hb : ¬c = '\\') :
    parseStrBodyF (f + 1) (c :: Y) =
      (parseStrBodyF f Y).map fun p => (c :: p.1, p.2) := by
  cases h : parseStrBodyF f Y with
  | none => simp [parseStrBodyF, hq, hb, h]
  | some p => simp [parseStrBodyF, hq, hb, h]

theorem parseStrBodyF_cons_esc (f : Nat) (Z : Chars) :
    parseStrBodyF (f + 1) ('\\' :: Z) =
      (parseEsc Z).bind fun q =>
        (parseStrBodyF f q.2).map fun p => (q.1 :: p.1, p.2) := by
  cases h : parseEsc Z with
  | none => simp [parseStrBodyF, h]
  | some q =>
    cases h2 : parseStrBodyF f q.2 with
    | none => simp [parseStrBodyF, h, h2]
    | some p => simp [parseStrBodyF, h, h2]

theorem parseStrBodyF_escBody (ea : Bool) (cs : Chars) :
    ∀ (fuel : Nat) (rest : Chars), cs.length ≤ fuel →
    parseStrBodyF fuel (escBody ea cs ++ '"' :: rest) = some (cs, rest) := by
  induction cs with
  | nil =>
    intro fuel rest _
    show parseStrBodyF fuel (([] : Chars) ++ '"' :: rest) = some ([], rest)
    rw [List.nil_append]
    unfold parseStrBodyF
    simp
  | cons c cs ih =>
    intro fuel rest h
    match fuel with
    | 0 => simp at h
    | f + 1 =>
      have hlen : cs.length ≤ f := by simp at h; omega
      rcases escChar_spec ea c with ⟨he, hq, hb⟩ | ⟨t, he, hp⟩
      · have e1 : escBody ea (c :: cs) ++ '"' :: rest =
            c :: (escBody ea cs ++ '"' :: rest) := by
          show (escChar ea c ++ escBody ea cs) ++ '"' :: rest = _
          rw [he]
          simp
        rw [e1, parseStrBodyF_cons_plain f c _ hq hb, ih f rest hlen]
        rfl
      · have e1 : escBody ea (c :: cs) ++ '"' :: rest =
            '\\' :: (t ++ (escBody ea cs ++ '"' :: rest)) := by
          show (escChar ea c ++ escBody ea cs) ++ '"' :: rest = _
          rw [he]
          simp
        rw [e1, parseStrBodyF_cons_esc f _, hp (escBody ea cs ++ '"' :: rest)]
        simp only [Option.some_bind']
        rw [ih f rest hlen]
        rfl

theorem escChar_length_pos (ea : Bool) (c : Char) :
    1 ≤ (escChar ea c).length := by
  rcases escChar_spec ea c with ⟨he, _, _⟩ | ⟨t, he, _⟩ <;> simp [he]

theorem escBody_length_le (ea : Bool) (cs : Chars) :
    cs.length ≤ (escBody ea cs).length := by
  induction cs with
  | nil => simp [escBody]
  | cons c cs ih =>
    have := escChar_length_pos ea c
    show cs.length + 1 ≤ (escChar ea c ++ escBody ea cs).length
    simp only [List.length_append]
    omega

theorem parseStrBody_escBody (ea : Bool) (cs rest : Chars) :
    parseStrBody (escBody ea cs ++ '"' :: rest) = some (cs, rest) := by
  unfold parseStrBody
  apply parseStrBodyF_escBody
  have := escBody_length_le ea cs
  simp only [List.length_append, List.length_cons]
  omega

theorem parseVal_dumpVal (ea : Bool) (v : CVal) (rest : Chars) :
    parseVal (dumpVal ea v ++ rest) = some (v, rest) := by
  cases v with
  | s str =>
    have e1 : dumpVal ea (.s str) ++ rest =
        '"' :: (escBody ea str.data ++ '"' :: rest) := by
      show ('"' :: escBody ea str.data ++ ['"']) ++ rest = _
      simp
    rw [e1]
    simp only [parseVal]
    rw [parseStrBody_escBody]
    simp [stringMk_data]
  | b bv =>
    cases bv <;> simp [dumpVal, parseVal]

theorem skipWs_cons_ws (c : Char) (h : isJsonWs c = true) (s : Chars) :
    skipWs (c :: s) = skipWs s := by
  simp [skipWs, List.dropWhile, h]

theorem skipWs_cons_no (c : Char) (h : isJsonWs c = false) (s : Chars) :
    skipWs (c :: s) = c :: s := by
  simp [skipWs, List.dropWhile, h]

theorem skipWs_spacesC (n : Nat) (l : Chars) :
    skipWs (spacesC n ++ l) = skipWs l := by
  induction n with
  | zero => simp [spacesC]
  | succ n ih =>
    have e1 : spacesC (n + 1) ++ l = ' ' :: (spacesC n ++ l) := by
      simp [spacesC, List.replicate_succ]
    rw [e1, skipWs_cons_ws ' ' (by decide), ih]

theorem skipWs_dumpVal (ea : Bool) (v : CVal) (rest : Chars) :
    skipWs (dumpVal ea v ++ rest) = dumpVal ea v ++ rest := by
  cases v with
  | s str =>
    show skipWs (('"' :: escBody ea str.data ++ ['"']) ++ rest) = _
    rw [show ('"' :: escBody ea str.data ++ ['"']) ++ rest =
      '"' :: (escBody ea str.data ++ ['"'] ++ rest) by simp]
    rw [skipWs_cons_no '"' (by decide)]
    show '"' :: (escBody ea str.data ++ ['"'] ++ rest) =
      ('"' :: escBody ea str.data ++ ['"']) ++ rest
    simp
  | b bv => cases bv <;> simp [dumpVal, List.cons_append]
      <;> rw [skipWs_cons_no _ (by decide)]

theorem parseEntry_dumpEntry (ea : Bool) (ind : Nat) (e : String × CVal)
    (rest : Chars) :
    parseEntry (dumpEntry ea ind e ++ rest) = some (e, rest) := by
  obtain ⟨k, v⟩ := e
  have e1 : dumpEntry ea ind (k, v) ++ rest =
      spacesC ind ++ ('"' :: (escBody ea k.data ++
        '"' :: (':' :: (' ' :: (dumpVal ea v ++ rest))))) := by
    show (spacesC ind ++ ('"' :: escBody ea k.data ++ ['"']) ++
      ':' :: ' ' :: dumpVal ea v) ++ rest = _
    simp
  rw [e1]
  unfold parseEntry
  rw [skipWs_spacesC, skipWs_cons_no '"' (by decide)]
  simp only
  rw [parseStrBody_escBody]
  simp only [Option.some_bind']
  rw [skipWs_cons_no ':' (by decide)]
  simp only
  rw [skipWs_cons_ws ' ' (by decide), skipWs_dumpVal, parseVal_dumpVal]
  simp [stringMk_data]

theorem parseEntry_cons_ws (c : Char) (h : isJsonWs c = true) (s : Chars) :
    parseEntry (c :: s) = parseEntry s := by
  unfold parseEntry
  rw [skipWs_cons_ws c h]

theorem dumpRest_nil (ea : Bool) (ind : Nat) :
    dumpRest ea ind [] = ['\n', '\x7d'] := rfl

theorem dumpRest_cons (ea : Bool) (ind : Nat) (e : String × CVal)
    (t : List (String × CVal)) :
    dumpRest ea ind (e :: t) =
      ',' :: '\n' :: (dumpEntry ea ind e ++ dumpRest ea ind t) := rfl

theorem parseEntriesF_dumpRest (ea : Bool) (ind : Nat)
    (t : List (String × CVal)) :
    ∀ (e : String × CVal) (fuel : Nat), t.length ≤ fuel →
    parseEntriesF fuel ('\n' :: (dumpEntry ea ind e ++ dumpRest ea ind t)) =
      some (e :: t, []) := by
  induction t with
  | nil =>
    intro e fuel _
    unfold parseEntriesF
    rw [parseEntry_cons_ws '\n' (by decide), parseEntry_dumpEntry]
    simp only [Option.some_bind', dumpRest_nil]
    rw [skipWs_cons_ws '\n' (by decide), skipWs_cons_no '\x7d' (by decide)]
    simp
  | cons e2 t2 ih =>
    intro e fuel h
    match fuel with
    | 0 => simp at h
    | f + 1 =>
      have hlen : t2.length ≤ f := by simp at h; omega
      unfold parseEntriesF
      rw [parseEntry_cons_ws '\n' (by decide), parseEntry_dumpEntry]
      simp only [Option.some_bind', dumpRest_cons]
      rw [skipWs_cons_no ',' (by decide)]
      simp only [List.head?_cons, List.tail_cons, if_pos rfl]
      rw [ih e2 f hlen]
      rfl

theorem dumpRest_length (ea : Bool) (ind : Nat) (t : List (String × CVal)) :
    t.length ≤ (dumpRest ea ind t).length := by
  induction t with
  | nil => simp [dumpRest_nil]
  | cons e t ih =>
    rw [dumpRest_cons]
    simp only [List.length_cons, List.length_append]
    omega

theorem parseTopObj_dumpObj (ea : Bool) (ind : Nat)
    (es : List (String × CVal)) :
    parseTopObj (dumpObj ea ind es) = some es := by
  cases es with
  | nil =>
    show parseTopObj ['\x7b', '\x7d'] = some []
    decide
  | cons e t =>
    have e1 : dumpObj ea ind (e :: t) =
        '\x7b' :: ('\n' :: (dumpEntry ea ind e ++ dumpRest ea ind t)) := rfl
    rw [e1]
    unfold parseTopObj
    have hq : skipWs ('\n' :: (dumpEntry ea ind e ++ dumpRest ea ind t)) =
        '"' :: (escBody ea e.1.data ++ '"' :: (':' :: (' ' ::
          (dumpVal ea e.2 ++ dumpRest ea ind t)))) := by
      rw [skipWs_cons_ws '\n' (by decide)]
      rw [show dumpEntry ea ind e ++ dumpRest ea ind t =
        spacesC ind ++ ('"' :: (escBody ea e.1.data ++ '"' :: (':' :: (' ' ::
          (dumpVal ea e.2 ++ dumpRest ea ind t))))) by
        show (spacesC ind ++ ('"' :: escBody ea e.1.data ++ ['"']) ++
          ':' :: ' ' :: dumpVal ea e.2) ++ dumpRest ea ind t = _
        simp]
      rw [skipWs_spacesC, skipWs_cons_no '"' (by decide)]
    simp only [skipWs_cons_no '\x7b' (by decide), List.head?_cons,
      List.tail_cons, hq]
    simp only [if_true]
    rw [if_neg (by decide : ¬((some '"' : Option Char) = some '\x7d'))]
    have hfuel : t.length ≤
        ('\x7b' :: ('\n' :: (dumpEntry ea ind e ++ dumpRest ea ind t))).length
        := by
      have := dumpRest_length ea ind t
      simp only [List.length_cons, List.length_append]
      omega
    rw [parseEntriesF_dumpRest ea ind t e _ hfuel]
    simp [skipWs]

theorem stringData_mk (l : Chars) : (String.mk l).data = l := rfl

theorem jsonLoadConfig_dump (ea : Bool) (ind : Nat)
    (es : List (String × CVal)) :
    jsonLoadConfig (String.mk (dumpObj ea ind es)) = some es := by
  unfold jsonLoadConfig
  rw [stringData_mk, parseTopObj_dumpObj]

theorem updOne_cons_eq (k : String) (v w : CVal) (d : List (String × CVal)) :
    updOne ((k, w) :: d) k v = (k, v) :: d := by
  simp [updOne]

theorem updOne_cons_ne (k2 k : String) (h : ¬k2 = k) (v2 v : CVal)
    (d : List (String × CVal)) :
    updOne ((k2, v2) :: d) k v = (k2, v2) :: updOne d k v := by
  simp [updOne, h]

theorem dictUpdate_nil (d : List (String × CVal)) : dictUpdate d [] = d := rfl

theorem dictUpdate_cons (d : List (String × CVal)) (x : String × CVal)
    (l : List (String × CVal)) :
    dictUpdate d (x :: l) = dictUpdate (updOne d x.1 x.2) l := rfl

theorem dictUpdate_cons_notMem (k : String) (v : CVal)
    (d l : List (String × CVal)) (h : ∀ p ∈ l, ¬p.1 = k) :
    dictUpdate ((k, v) :: d) l = (k, v) :: dictUpdate d l := by
  induction l generalizing d with
  | nil => rfl
  | cons x l ih =>
    rw [dictUpdate_cons, dictUpdate_cons]
    have hx : ¬k = x.1 := fun hh => h x (by simp) hh.symm
    have e1 : updOne ((k, v) :: d) x.1 x.2 = (k, v) :: updOne d x.1 x.2 := by
      obtain ⟨x1, x2⟩ := x
      exact updOne_cons_ne k x1 hx v x2 d
    rw [e1]
    exact ih (updOne d x.1 x.2) fun p hp => h p (by simp [hp])

theorem dictUpdate_same_keys :
    ∀ (c d : List (String × CVal)), d.map Prod.fst = c.map Prod.fst →
    (c.map Prod.fst).Nodup → dictUpdate d c = c := by
  intro c
  induction c with
  | nil =>
    intro d h _
    have : d = [] := by
      cases d with
      | nil => rfl
      | cons y d2 => simp at h
    rw [this]
    rfl
  | cons x c ih =>
    intro d h hnd
    cases d with
    | nil => simp at h
    | cons y d2 =>
      obtain ⟨x1, x2⟩ := x
      obtain ⟨y1, y2⟩ := y
      simp only [List.map_cons, List.cons.injEq] at h
      obtain ⟨hk, hrest⟩ := h
      simp only [List.map_cons, List.nodup_cons] at hnd
      obtain ⟨hnotin, hnd2⟩ := hnd
      rw [dictUpdate_cons]
      subst hk
      rw [show updOne ((y1, y2) :: d2) (y1, x2).1 (y1, x2).2 =
        (y1, x2) :: d2 from updOne_cons_eq y1 x2 y2 d2]
      have hne : ∀ p ∈ c, ¬p.1 = y1 := by
        intro p hp hcontra
        exact hnotin (hcontra ▸ List.mem_map_of_mem Prod.fst hp)
      rw [dictUpdate_cons_notMem y1 x2 d2 c hne]
      rw [ih d2 hrest hnd2]

theorem lookupKey_updOne (k k2 : String) (v : CVal)
    (d : List (String × CVal)) (h : (lookupKey k d).isSome = true) :
    (lookupKey k (updOne d k2 v)).isSome = true := by
  induction d with
  | nil => simp [lookupKey] at h
  | cons p d ih =>
    obtain ⟨k3, v3⟩ := p
    by_cases h32 : k3 = k2
    · subst h32
      rw [updOne_cons_eq]
      by_cases hk : k3 = k
      · simp [lookupKey, hk]
      · simp only [lookupKey, if_neg hk] at h
        simp [lookupKey, hk, h]
    · rw [updOne_cons_ne k3 k2 h32]
      by_cases hk : k3 = k
      · simp [lookupKey, hk]
      · simp only [lookupKey, if_neg hk] at h
        simp [lookupKey, hk, ih h]

theorem lookupKey_dictUpdate (k : String) (l : List (String × CVal)) :
    ∀ (d : List (String × CVal)), (lookupKey k d).isSome = true →
    (lookupKey k (dictUpdate d l)).isSome = true := by
  induction l with
  | nil => intro d h; exact h
  | cons x l ih =>
    intro d h
    rw [dictUpdate_cons]
    exact ih (updOne d x.1 x.2) (lookupKey_updOne k x.1 x.2 d h)

/-! ## Properties of the leftmost search and of the line-based parsers -/

theorem searchWith_eq_none_iff {α : Type} (m : Chars → Option α) (s : Chars) :
    searchWith m s = none ↔ ∀ t ∈ s.tails, m t = none := by
  induction s with
  | nil => simp [searchWith]
  | cons c rest ih =>
    rw [List.tails_cons]
    constructor
    · intro h t ht
      unfold searchWith at h
      cases hm : m (c :: rest) with
      | some r => rw [hm] at h; exact absurd h (by simp)
      | none =>
        rw [hm] at h
        rcases List.mem_cons.mp ht with rfl | ht2
        · exact hm
        · exact (ih.mp h) t ht2
    · intro h
      unfold searchWith
      rw [h (c :: rest) (by simp)]
      exact ih.mpr fun t ht => h t (by simp [ht])

theorem searchWith_some_imp {α : Type} (m : Chars → Option α) (s : Chars)
    (r : α) (h : searchWith m s = some r) : ∃ t ∈ s.tails, m t = some r := by
  induction s with
  | nil =>
    refine ⟨[], by simp, ?_⟩
    simpa [searchWith] using h
  | cons c rest ih =>
    unfold searchWith at h
    cases hm : m (c :: rest) with
    | some r2 =>
      rw [hm] at h
      exact ⟨c :: rest, by simp, hm.trans h⟩
    | none =>
      rw [hm] at h
      obtain ⟨t, ht, hmt⟩ := ih h
      exact ⟨t, by simp [List.tails_cons, ht], hmt⟩

theorem splitOnChar_no_sep (sep : Char) (xs : Chars)
    (h : ∀ c ∈ xs, ¬c = sep) : splitOnChar sep xs = [xs] := by
  induction xs with
  | nil => rfl
  | cons c rest ih =>
    conv_lhs => unfold splitOnChar
    rw [if_neg (h c (by simp))]
    rw [ih fun x hx => h x (by simp [hx])]

theorem splitOnChar_append_sep (sep : Char) (xs r : Chars)
    (h : ∀ c ∈ xs, ¬c = sep) :
    splitOnChar sep (xs ++ sep :: r) = xs :: splitOnChar sep r := by
  induction xs with
  | nil =>
    show splitOnChar sep (sep :: r) = [] :: splitOnChar sep r
    conv_lhs => unfold splitOnChar
    rw [if_pos rfl]
  | cons c rest ih =>
    show splitOnChar sep (c :: (rest ++ sep :: r)) = _
    conv_lhs => unfold splitOnChar
    rw [if_neg (h c (by simp))]
    rw [ih fun x hx => h x (by simp [hx])]

theorem splitOnChar_joinWith (sep : Char) (ls : List Chars)
    (hne : ls ≠ []) (h : ∀ l ∈ ls, ∀ c ∈ l, ¬c = sep) :
    splitOnChar sep (joinWith sep ls) = ls := by
  induction ls with
  | nil => exact absurd rfl hne
  | cons l rest ih =>
    cases rest with
    | nil =>
      show splitOnChar sep l = [l]
      exact splitOnChar_no_sep sep l (h l (by simp))
    | cons l2 rest2 =>
      show splitOnChar sep (l ++ sep :: joinWith sep (l2 :: rest2)) = _
      rw [splitOnChar_append_sep sep l _ (h l (by simp))]
      rw [ih (by simp) fun x hx => h x (by simp [hx])]

/-! ## Counting effects in the handler traces -/

/-- Number of external commands a trace launches. -/
def numRuns (t : List Effect) : Nat := t.countP isRunE

/-- Number of modal dialogs a trace shows. -/
def numDialogs (t : List Effect) : Nat := t.countP isDialogE

/-- Number of log lines a trace appends. -/
def numLogs (t : List Effect) : Nat := t.countP isLogE

/-- Number of error or warning log lines a trace appends. -/
def numBadLogs (t : List Effect) : Nat := t.countP isBadLogE

/-- An external-command failure: non-zero exit code, timeout, missing
binary, or another exception. -/
def isCmdFailure : RunOutcome → Bool
  | .completed rc _ _ => rc != 0
  | _ => true

theorem refresh_trace_no_dialog (cfg : nock2.Config) (o : RunOutcome) :
    numDialogs (nock2.refresh_balance_trace cfg o) = 0 ∧
    numRuns (nock2.refresh_balance_trace cfg o) ≤ 1 := by
  unfold nock2.refresh_balance_trace
  by_cases hw : cfg.wallet_imported = false
  · simp [hw, numDialogs, numRuns, isDialogE, isRunE]
  · rw [if_neg hw]
    rcases o with ⟨rc, out, err⟩ | _ | _ | m <;>
      simp only [numDialogs, numRuns, List.countP_cons, List.countP_nil,
        List.countP_append, isDialogE, isRunE] <;>
      try simp [isDialogE, isRunE]
    by_cases hrc : rc = 0
    · rw [if_pos hrc]
      cases hb : nock2.parse_balance out
      · simp [isDialogE, isRunE]
      · cases hv : nock2.parse_wallet_version out <;>
          cases hh : nock2.parse_height out <;>
          simp [List.countP_cons, List.countP_append, isDialogE, isRunE]
    · rw [if_neg hrc]
      simp [isDialogE, isRunE]

theorem refresh_trace_fail_log (cfg : nock2.Config) (o : RunOutcome)
    (hw : cfg.wallet_imported = true) (hf : isCmdFailure o = true) :
    1 ≤ numBadLogs (nock2.refresh_balance_trace cfg o) := by
  unfold nock2.refresh_balance_trace
  rw [if_neg (by simp [hw])]
  rcases o with ⟨rc, out, err⟩ | _ | _ | m <;>
    simp only [numBadLogs, List.countP_cons, List.countP_nil, isBadLogE] <;>
    try simp [isBadLogE]
  have hrc : ¬rc = 0 := by simpa [isCmdFailure] using hf
  rw [if_neg hrc]
  simp [isBadLogE]

theorem refresh_trace_unparseable_log (cfg : nock2.Config)
    (out err : String) (hw : cfg.wallet_imported = true)
    (hb : nock2.parse_balance out = none) :
    1 ≤ numBadLogs
      (nock2.refresh_balance_trace cfg (.completed 0 out err)) := by
  unfold nock2.refresh_balance_trace
  rw [if_neg (by simp [hw])]
  simp only [numBadLogs, List.countP_cons, List.countP_nil, isBadLogE]
  simp only [if_true]
  rw [hb]
  simp [isBadLogE]

theorem load_notes_trace_no_dialog (cfg : nock2.Config) (watch : Bool)
    (o : RunOutcome) :
    numDialogs (nock2.load_notes_trace cfg watch o) = 0 ∧
    numRuns (nock2.load_notes_trace cfg watch o) ≤ 1 := by
  unfold nock2.load_notes_trace
  by_cases hw : cfg.wallet_imported = false
  · simp [hw, numDialogs, numRuns]
  · rw [if_neg hw]
    rcases o with ⟨rc, out, err⟩ | _ | _ | m <;>
      simp only [numDialogs, numRuns, List.countP_cons, List.countP_nil,
        isDialogE, isRunE] <;>
      try simp [isDialogE, isRunE]
    repeat' split
    all_goals simp [isDialogE, isRunE, List.countP_cons, List.countP_nil]

theorem load_notes_trace_fail_log (cfg : nock2.Config) (watch : Bool)
    (o : RunOutcome) (hw : cfg.wallet_imported = true)
    (hf : isCmdFailure o = true) :
    1 ≤ numBadLogs (nock2.load_notes_trace cfg watch o) := by
  unfold nock2.load_notes_trace
  rw [if_neg (by simp [hw])]
  rcases o with ⟨rc, out, err⟩ | _ | _ | m <;>
    simp only [numBadLogs, List.countP_cons, List.countP_nil, isBadLogE] <;>
    try simp [isBadLogE]
  have hrc : ¬rc = 0 := by simpa [isCmdFailure] using hf
  rw [if_neg hrc]
  simp [isBadLogE]

theorem get_block_trace_no_dialog (cfg : nock2.Config) (height : Nat)
    (o : RunOutcome) (hh : height ≠ 0) :
    numDialogs (nock2.get_block_trace cfg height o) = 0 ∧
    numRuns (nock2.get_block_trace cfg height o) ≤ 1 := by
  unfold nock2.get_block_trace
  rw [if_neg hh]
  rcases o with ⟨rc, out, err⟩ | _ | _ | m <;>
    simp only [numDialogs, numRuns, List.countP_cons, List.countP_nil,
      isDialogE, isRunE] <;>
    try simp [isDialogE, isRunE]
  by_cases hrc : rc = 0
  · rw [if_pos hrc]
    simp [isDialogE, isRunE]
  · rw [if_neg hrc]
    simp [isDialogE, isRunE]

theorem get_block_trace_runs (cfg : nock2.Config) (height : Nat)
    (o : RunOutcome) :
    numRuns (nock2.get_block_trace cfg height o) ≤ 1 := by
  by_cases hh : height = 0
  · unfold nock2.get_block_trace
    rw [if_pos hh]
    simp [numRuns, isRunE]
  · exact (get_block_trace_no_dialog cfg height o hh).2

theorem get_block_trace_fail_log (cfg : nock2.Config) (height : Nat)
    (o : RunOutcome) (hh : height ≠ 0) (hf : isCmdFailure o = true) :
    1 ≤ numBadLogs (nock2.get_block_trace cfg height o) := by
  unfold nock2.get_block_trace
  rw [if_neg hh]
  rcases o with ⟨rc, out, err⟩ | _ | _ | m <;>
    simp only [numBadLogs, List.countP_cons, List.countP_nil, isBadLogE] <;>
    try simp [isBadLogE]
  have hrc : ¬rc = 0 := by simpa [isCmdFailure] using hf
  rw [if_neg hrc]
  simp [isBadLogE]

theorem check_binary_trace_runs (cfg : nock2.Config) (o : RunOutcome) :
    numRuns (nock2.check_binary_trace cfg o) = 1 := by
  unfold nock2.check_binary_trace
  rcases o with ⟨rc, out, err⟩ | _ | _ | m <;>
    simp only [numRuns, List.countP_cons, List.countP_nil, isRunE] <;>
    try simp [isRunE]
  by_cases hrc : rc = 0
  · rw [if_pos hrc]; simp [isRunE]
  · rw [if_neg hrc]; simp [isRunE]

theorem check_binary_trace_nonzero (cfg : nock2.Config) (rc : Int)
    (out err : String) (hrc : rc ≠ 0) :
    1 ≤ numBadLogs (nock2.check_binary_trace cfg (.completed rc out err)) ∧
    numDialogs (nock2.check_binary_trace cfg (.completed rc out err)) = 0 := by
  unfold nock2.check_binary_trace
  simp only [numBadLogs, numDialogs, List.countP_cons, List.countP_nil,
    isBadLogE, isDialogE]
  rw [if_neg hrc]
  simp [isBadLogE, isDialogE]

theorem check_binary_trace_notfound (cfg : nock2.Config) :
    1 ≤ numBadLogs (nock2.check_binary_trace cfg .fileNotFound) ∧
    numDialogs (nock2.check_binary_trace cfg .fileNotFound) = 1 := by
  unfold nock2.check_binary_trace
  simp [numBadLogs, numDialogs, isBadLogE, isDialogE]

theorem import_trace_runs (cfg : nock2.Config) (src : Option String)
    (we : Bool) (home : String) (o : RunOutcome) :
    numRuns (nock2.import_wallet_trace cfg src we home o) ≤ 1 := by
  unfold nock2.import_wallet_trace
  cases src with
  | none => simp [numRuns]
  | some s =>
    rcases o with ⟨rc, out, err⟩ | _ | _ | m <;>
      simp only [numRuns, List.countP_cons, List.countP_nil, isRunE] <;>
      try simp [isRunE]
    by_cases hrc : rc = 0
    · rw [if_pos hrc]
      by_cases hwe : we = true
      · rw [if_pos hwe]; simp [isRunE]
      · rw [if_neg hwe]; simp [isRunE]
    · rw [if_neg hrc]; simp [isRunE]

theorem import_trace_fail (cfg : nock2.Config) (s : String)
    (we : Bool) (home : String) (o : RunOutcome)
    (hf : isCmdFailure o = true) :
    1 ≤ numBadLogs (nock2.import_wallet_trace cfg (some s) we home o) ∧
    1 ≤ numDialogs (nock2.import_wallet_trace cfg (some s) we home o) := by
  unfold nock2.import_wallet_trace
  rcases o with ⟨rc, out, err⟩ | _ | _ | m <;>
    simp only [numBadLogs, numDialogs, List.countP_cons, List.countP_nil,
      isBadLogE, isDialogE] <;>
    try simp [isBadLogE, isDialogE]
  have hrc : ¬rc = 0 := by simpa [isCmdFailure] using hf
  rw [if_neg hrc]
  simp [isBadLogE, isDialogE]

theorem export_trace_runs (cfg : nock2.Config) (outFile : Option String)
    (o : RunOutcome) :
    numRuns (nock2.export_wallet_trace cfg outFile o) ≤ 1 := by
  unfold nock2.export_wallet_trace
  by_cases hw : cfg.wallet_imported = false
  · simp [hw, numRuns, isRunE]
  · rw [if_neg hw]
    cases outFile with
    | none => simp [numRuns]
    | some out =>
      rcases o with ⟨rc, sout, err⟩ | _ | _ | m <;>
        simp only [numRuns, List.countP_cons, List.countP_nil, isRunE] <;>
        try simp [isRunE]
      by_cases hrc : rc = 0
      · rw [if_pos hrc]; simp [isRunE]
      · rw [if_neg hrc]; simp [isRunE]

theorem export_trace_fail (cfg : nock2.Config) (out : String)
    (o : RunOutcome) (hw : cfg.wallet_imported = true)
    (hf : isCmdFailure o = true) :
    1 ≤ numBadLogs (nock2.export_wallet_trace cfg (some out) o) ∧
    1 ≤ numDialogs (nock2.export_wallet_trace cfg (some out) o) := by
  unfold nock2.export_wallet_trace
  rw [if_neg (by simp [hw])]
  rcases o with ⟨rc, sout, err⟩ | _ | _ | m <;>
    simp only [numBadLogs, numDialogs, List.countP_cons, List.countP_nil,
      isBadLogE, isDialogE] <;>
    try simp [isBadLogE, isDialogE]
  have hrc : ¬rc = 0 := by simpa [isCmdFailure] using hf
  rw [if_neg hrc]
  simp [isBadLogE, isDialogE]

set_option maxHeartbeats 1600000 in
theorem v011_refresh_trace_no_dialog (cfg : v011.Config) (o : RunOutcome) :
    numDialogs (v011.refresh_balance_trace cfg o) = 0 ∧
    numRuns (v011.refresh_balance_trace cfg o) ≤ 1 := by
  unfold v011.refresh_balance_trace
  by_cases hw : cfg.wallet_imported = false
  · simp [hw, numDialogs, numRuns, isDialogE, isRunE]
  · rw [if_neg hw]
    rcases o with ⟨rc, out, err⟩ | _ | _ | m <;>
      simp only [numDialogs, numRuns, List.countP_cons, List.countP_nil,
        isDialogE, isRunE] <;>
      try simp [isDialogE, isRunE]
    repeat' split
    all_goals simp [isDialogE, isRunE, List.countP_cons, List.countP_nil,
      List.countP_append]

theorem v011_refresh_trace_fail_log (cfg : v011.Config) (o : RunOutcome)
    (hw : cfg.wallet_imported = true) (hf : isCmdFailure o = true) :
    1 ≤ numBadLogs (v011.refresh_balance_trace cfg o) := by
  unfold v011.refresh_balance_trace
  rw [if_neg (by simp [hw])]
  rcases o with ⟨rc, out, err⟩ | _ | _ | m <;>
    simp only [numBadLogs, List.countP_cons, List.countP_nil, isBadLogE] <;>
    try simp [isBadLogE]
  have hrc : ¬rc = 0 := by simpa [isCmdFailure] using hf
  rw [if_neg hrc]
  simp [isBadLogE]

theorem v011_refresh_trace_unparseable_log (cfg : v011.Config)
    (out err : String) (hw : cfg.wallet_imported = true)
    (hb : v011.parse_balance out = none) :
    1 ≤ numBadLogs
      (v011.refresh_balance_trace cfg (.completed 0 out err)) := by
  unfold v011.refresh_balance_trace
  rw [if_neg (by simp [hw])]
  simp only [numBadLogs, List.countP_cons, List.countP_nil, isBadLogE]
  simp only [if_true]
  rw [hb]
  simp [isBadLogE]

/-! ## Definedness of the extraction functions -/

namespace nock2

/-- Exact definedness condition of `parse_balance` of `nock2.py`: the
`Total:` regex matches and its first group converts with `int` (no period,
not all commas), and the same for the first `Available:` group when one
exists. -/
def balanceDefined (s : String) : Bool :=
  match searchWith (matchNicksAmountAt "Total:".data) s.data with
  | some g =>
    (pyIntNat (g.filter (· ≠ ','))).isSome &&
    (match searchWith (matchNicksAmountAt "Available:".data) s.data with
     | some g2 => (pyIntNat (g2.filter (· ≠ ','))).isSome
     | none => true)
  | none => false

/-- Exact definedness condition of `parse_height` of `nock2.py`: the
`Height:` regex matches and its first group still has a digit after
dropping `,` and `.`. -/
def heightDefined (s : String) : Bool :=
  match searchWith matchHeightAt s.data with
  | some g => (pyIntNat (g.filter fun c => !(c = ',' || c = '.'))).isSome
  | none => false

end nock2

/-- The claim-side reading of the expected balance pattern, from the claim
text: the string contains `Total:` followed by whitespace, digits,
whitespace and `nicks`. -/
def specContainsBalancePattern (s : String) : Bool :=
  (searchWith (fun t =>
    (dropLit "Total:".data t).bind fun r0 =>
    let r1 := r0.dropWhile isPySpace
    let g := r1.takeWhile isDigitC
    if g.isEmpty then none
    else if (dropLit "nicks".data
        ((r1.dropWhile isDigitC).dropWhile isPySpace)).isSome then some g
    else none) s.data).isSome

/-- The claim-side reading of the note parser, from the claim text: the
result depends only on the first occurrence of the searched pattern — all
later occurrences are ignored — so it holds at most the first matching
line (and is empty when no line matches). -/
def specFirstNote (s : String) : List String :=
  match ((splitOnChar '\n' s.data).filter (containsRun isHexLower 40)).head? with
  | some line => [String.mk (pyStrip line)]
  | none => []

theorem v011_matchBalance_int (s g : Chars)
    (h : v011.matchBalanceAt s = some g) :
    (pyIntNat (g.filter (· ≠ ','))).isSome = true := by
  unfold v011.matchBalanceAt at h
  cases hd : dropLitCI "Balance:".data s with
  | none => rw [hd] at h; simp at h
  | some r0 =>
    rw [hd] at h
    simp only [Option.some_bind'] at h
    cases hr : r0.dropWhile isPySpace with
    | nil => rw [hr] at h; simp at h
    | cons c tail =>
      rw [hr] at h
      simp only [List.head?_cons, Option.some_bind'] at h
      by_cases hdig : isDigitC c = true
      · rw [if_pos hdig] at h
        by_cases hn : (dropLitCI "nick".data
            (((c :: tail).dropWhile fun x => isDigitC x || x = ',').dropWhile
              isPySpace)).isSome
        · rw [if_pos hn] at h
          have hg : g = (c :: tail).takeWhile
              (fun x => isDigitC x || x = ',') := by
            exact (Option.some.injEq _ _ ▸ h).symm
          have hcls : ((c :: tail).takeWhile fun x => isDigitC x || x = ',') =
              c :: (tail.takeWhile fun x => isDigitC x || x = ',') := by
            rw [List.takeWhile_cons_of_pos (by simp [hdig])]
          rw [hg, hcls]
          have hcne : (c ≠ ',') = True := by
            simp only [ne_eq, eq_iff_iff, iff_true]
            intro hc
            rw [hc] at hdig
            exact absurd hdig (by decide)
          have hfc : (c :: (tail.takeWhile fun x => isDigitC x || x = ',')
              ).filter (· ≠ ',') =
              c :: ((tail.takeWhile fun x => isDigitC x || x = ',').filter
                (· ≠ ',')) := by
            rw [List.filter_cons]
            simp [hcne]
          rw [hfc]
          unfold pyIntNat
          rw [if_pos ?_]
          · simp
          · simp only [Bool.and_eq_true, decide_eq_true_eq]
            constructor
            · simp
            · rw [List.all_cons]
              refine (Bool.and_eq_true _ _).mpr ⟨hdig, ?_⟩
              rw [List.all_eq_true]
              intro x hx
              have hx2 := List.mem_filter.mp hx
              have hx3 := List.mem_takeWhile_imp hx2.1
              have hx4 : (x ≠ ',') := by simpa using hx2.2
              rcases Bool.or_eq_true _ _ |>.mp hx3 with hxd | hxc
              · exact hxd
              · exact absurd (by simpa using hxc) hx4
        · rw [if_neg hn] at h
          simp at h
      · rw [if_neg hdig] at h
        simp at h

theorem nock2_matchHeight_numPunct (s g : Chars)
    (h : nock2.matchHeightAt s = some g) : ∀ x ∈ g, isNumPunct x = true := by
  unfold nock2.matchHeightAt at h
  cases hd : dropLit "Height:".data s with
  | none => rw [hd] at h; simp at h
  | some r0 =>
    rw [hd] at h
    simp only [Option.some_bind'] at h
    by_cases hg : ((r0.dropWhile isPySpace).takeWhile isNumPunct).isEmpty
    · rw [if_pos hg] at h; simp at h
    · rw [if_neg hg] at h
      have hg2 : g = (r0.dropWhile isPySpace).takeWhile isNumPunct :=
        (Option.some.injEq _ _ ▸ h).symm
      intro x hx
      rw [hg2] at hx
      exact List.mem_takeWhile_imp hx

/-! ## Claim theorems -/

/-- C1, counterexample. The claim says the extraction functions return a
defined value exactly when the expected pattern occurs. The string
`"Total: 1.5 nicks Total: 2 nicks"` contains the expected balance pattern
(`Total:` followed by digits and `nicks`, in its second half), yet
`parse_balance` of `nock2.py` returns `None`: the regex finds the earlier
match `Total: 1.5 nicks`, whose group `1.5` still contains a period after
comma removal, so `int` raises and the handler returns `None`. -/
theorem c1_counterexample :
    specContainsBalancePattern "Total: 1.5 nicks Total: 2 nicks" = true ∧
    nock2.parse_balance "Total: 1.5 nicks Total: 2 nicks" = none := by
  constructor
  · decide
  · decide

/-- C1, amended. Each extraction function is defined exactly when its own
regex admits a first match whose captured group survives the numeric
conversion: `parse_balance` of `nock2.py` is defined iff the first `Total:`
group (and the first `Available:` group, when present) converts with `int`
after comma removal; `parse_wallet_version` of `nock2.py` is defined iff a
dotted `Version: d.d.d` match exists; `parse_height` is defined iff the
first `Height:` group still has a digit after dropping `,` and `.`; the
v0.1.1 `parse_balance` is defined iff its regex matches (its group always
converts); the v0.1.1 `parse_wallet_version` is defined iff its regex
matches. -/
theorem c1_defined_iff (s : String) :
    (nock2.parse_balance s).isSome = nock2.balanceDefined s ∧
    (nock2.parse_wallet_version s).isSome =
      (searchWith nock2.matchVersionAt s.data).isSome ∧
    (nock2.parse_height s).isSome = nock2.heightDefined s ∧
    (v011.parse_balance s).isSome =
      (searchWith v011.matchBalanceAt s.data).isSome ∧
    (v011.parse_wallet_version s).isSome =
      (searchWith v011.matchWVAt s.data).isSome := by
  refine ⟨?_, ?_, ?_, ?_, ?_⟩
  · unfold nock2.parse_balance nock2.balanceDefined
    repeat' split
    all_goals simp_all
  · unfold nock2.parse_wallet_version
    cases h : searchWith nock2.matchVersionAt s.data <;> simp
  · unfold nock2.parse_height nock2.heightDefined
    cases h : searchWith nock2.matchHeightAt s.data with
    | none => simp
    | some g => simp
  · unfold v011.parse_balance
    cases h : searchWith v011.matchBalanceAt s.data with
    | none => simp
    | some g =>
      obtain ⟨t, _, hmt⟩ := searchWith_some_imp v011.matchBalanceAt s.data g h
      have hint := v011_matchBalance_int t g hmt
      repeat' split
      all_goals simp_all
  · unfold v011.parse_wallet_version
    cases h : searchWith v011.matchWVAt s.data <;> simp

/-- C3, counterexample. The claim says every subprocess invocation carries
a fixed timeout, explicitly including transaction creation and sending;
but both `subprocess.run` calls of `TransactionEngine.send_funds` in
`nock2.py` pass no `timeout` keyword at all. -/
theorem c3_counterexample :
    (nock2.send_funds_create_run "nockchain-wallet" "nock1abc" 65536 []
      10).timeout = none ∧
    (nock2.send_funds_send_run "nockchain-wallet" "out.tx").timeout =
      none := ⟨rfl, rfl⟩

/-- C3, amended. Every subprocess invocation except the two of
`TransactionEngine.send_funds` supplies a fixed timeout: 5 seconds for the
binary check, 60 for the key import, 30 for export, balance refresh, note
loading and block fetch (both program variants); the two `send_funds`
invocations supply none. -/
theorem c3_timeouts :
    (∀ cfg : nock2.Config, (nock2.check_binary_run cfg).timeout = some 5) ∧
    (∀ (cfg : nock2.Config) (src : String),
      (nock2.import_wallet_run cfg src).timeout = some 60) ∧
    (∀ (cfg : nock2.Config) (out : String),
      (nock2.export_wallet_run cfg out).timeout = some 30) ∧
    (∀ cfg : nock2.Config,
      (nock2.refresh_balance_run cfg).timeout = some 30) ∧
    (∀ (cfg : nock2.Config) (watch : Bool),
      (nock2.load_notes_run cfg watch).timeout = some 30) ∧
    (∀ (cfg : nock2.Config) (height : Nat),
      (nock2.get_block_run cfg height).timeout = some 30) ∧
    (∀ cfg : v011.Config, (v011.check_binary_run cfg).timeout = some 5) ∧
    (∀ (cfg : v011.Config) (src : String),
      (v011.import_wallet_run cfg src).timeout = some 60) ∧
    (∀ (cfg : v011.Config) (out : String),
      (v011.export_wallet_run cfg out).timeout = some 30) ∧
    (∀ cfg : v011.Config,
      (v011.refresh_balance_run cfg).timeout = some 30) ∧
    (∀ (wb recipient : String) (amount : Int) (names : List String)
      (fee : Int),
      (nock2.send_funds_create_run wb recipient amount names fee).timeout =
        none) ∧
    (∀ wb tx : String, (nock2.send_funds_send_run wb tx).timeout = none) :=
  ⟨fun _ => rfl, fun _ _ => rfl, fun _ _ => rfl, fun _ => rfl,
   fun _ _ => rfl, fun _ _ => rfl, fun _ => rfl, fun _ _ => rfl,
   fun _ _ => rfl, fun _ => rfl, fun _ _ _ _ _ => rfl, fun _ _ => rfl⟩

/-- C6, counterexample. The claim says both program variants define exactly
the seven configuration keys; but `default_config` of
`nockwallet-v0.1.1.py` has only six keys — `last_used_directory` is
missing. -/
theorem c6_counterexample :
    v011.default_config.map Prod.fst =
      ["wallet_binary", "wallet_path", "wallet_imported", "client_type",
       "public_server", "private_port"] ∧
    ¬("last_used_directory" ∈ v011.default_config.map Prod.fst) := by
  constructor
  · rfl
  · decide

/-- C6, amended. `nock2.py` defines exactly the seven keys of the claim;
v0.1.1 defines exactly the six without `last_used_directory`; in both
variants every configuration produced by the load-and-merge fills all
default keys (a key absent from the file keeps its default). -/
theorem c6_amended (home : String) (loaded : List (String × CVal)) :
    (nock2.DEFAULT_CONFIG home).map Prod.fst =
      ["wallet_binary", "wallet_path", "wallet_imported", "client_type",
       "public_server", "private_port", "last_used_directory"] ∧
    v011.default_config.map Prod.fst =
      ["wallet_binary", "wallet_path", "wallet_imported", "client_type",
       "public_server", "private_port"] ∧
    (((nock2.DEFAULT_CONFIG home).map Prod.fst).all fun k =>
      (lookupKey k (dictUpdate (nock2.DEFAULT_CONFIG home) loaded)).isSome)
      = true ∧
    ((v011.default_config.map Prod.fst).all fun k =>
      (lookupKey k (dictUpdate v011.default_config loaded)).isSome)
      = true := by
  refine ⟨rfl, rfl, ?_, ?_⟩
  · rw [List.all_eq_true]
    intro k hk
    apply lookupKey_dictUpdate
    have : k ∈ (nock2.DEFAULT_CONFIG home).map Prod.fst := hk
    rw [show (nock2.DEFAULT_CONFIG home).map Prod.fst =
      ["wallet_binary", "wallet_path", "wallet_imported", "client_type",
       "public_server", "private_port", "last_used_directory"] from rfl]
      at this
    simp only [List.mem_cons, List.not_mem_nil, or_false] at this
    rcases this with rfl | rfl | rfl | rfl | rfl | rfl | rfl <;>
      simp [lookupKey, nock2.DEFAULT_CONFIG]
  · rw [List.all_eq_true]
    intro k hk
    apply lookupKey_dictUpdate
    have : k ∈ v011.default_config.map Prod.fst := hk
    rw [show v011.default_config.map Prod.fst =
      ["wallet_binary", "wallet_path", "wallet_imported", "client_type",
       "public_server", "private_port"] from rfl] at this
    simp only [List.mem_cons, List.not_mem_nil, or_false] at this
    rcases this with rfl | rfl | rfl | rfl | rfl | rfl <;>
      simp [lookupKey, v011.default_config]

/-- C2. Configuration round trip: an in-memory configuration whose keys are
the default keys, with string and boolean values, written by the save
operation (`json.dump` with `indent=2` in `nock2.py`, `indent=4,
ensure_ascii=False` in v0.1.1) and read back by the load operation
(`json.load` followed by merging over the defaults) is recovered exactly,
with no key or value lost or altered. -/
theorem c2_config_roundtrip (home : String) (c c2 : List (String × CVal))
    (h : c.map Prod.fst = (nock2.DEFAULT_CONFIG home).map Prod.fst)
    (h2 : c2.map Prod.fst = v011.default_config.map Prod.fst) :
    nock2.load_config home (some (nock2.save_config c)) = c ∧
    v011.load_config (some (v011.save_config c2)) = c2 := by
  constructor
  · show (match jsonLoadConfig (nock2.save_config c) with
      | some loaded => dictUpdate (nock2.DEFAULT_CONFIG home) loaded
      | none => nock2.DEFAULT_CONFIG home) = c
    rw [show nock2.save_config c = String.mk (dumpObj true 2 c) from rfl]
    rw [jsonLoadConfig_dump]
    apply dictUpdate_same_keys
    · exact h.symm
    · rw [h]
      rw [show (nock2.DEFAULT_CONFIG home).map Prod.fst =
        ["wallet_binary", "wallet_path", "wallet_imported", "client_type",
         "public_server", "private_port", "last_used_directory"] from rfl]
      decide
  · show (match jsonLoadConfig (v011.save_config c2) with
      | some loaded => dictUpdate v011.default_config loaded
      | none => v011.default_config) = c2
    rw [show v011.save_config c2 = String.mk (dumpObj false 4 c2) from rfl]
    rw [jsonLoadConfig_dump]
    apply dictUpdate_same_keys
    · exact h2.symm
    · rw [h2]
      decide

/-- Witness for C2 at a concrete configuration: the defaults themselves
(with a concrete home directory) survive the save/load round trip in both
variants. -/
theorem c2_config_roundtrip_witness :
    nock2.load_config "/home/user"
      (some (nock2.save_config (nock2.DEFAULT_CONFIG "/home/user"))) =
      nock2.DEFAULT_CONFIG "/home/user" ∧
    v011.load_config (some (v011.save_config v011.default_config)) =
      v011.default_config :=
  c2_config_roundtrip "/home/user" (nock2.DEFAULT_CONFIG "/home/user")
    v011.default_config rfl rfl

/-- C7. The nick conversion factor is the fixed 65536 in both directions:
every balance record built by `parse_balance` of `nock2.py` has its NOCK
amounts equal to the nick amounts divided by 65536 (exact rational model of
the float division, which is exact for values below 2^53), and the amount
a user enters is sent as `int(amount * 65536)` nicks (`int` truncates
toward zero). -/
theorem c7_nick_factor :
    (∀ (s : String) (b : nock2.BalanceInfo), nock2.parse_balance s = some b →
      b.total_nock = (b.total_nicks : ℚ) / 65536 ∧
      b.available_nock = (b.available_nicks : ℚ) / 65536) ∧
    (∀ a : ℚ, nock2.amount_nicks a = nock2.pyTrunc (a * 65536)) := by
  constructor
  · intro s b h
    unfold nock2.parse_balance at h
    repeat' split at h
    all_goals simp_all
    all_goals (obtain rfl := h; simp)
  · intro a
    rfl

/-- Witness for C7: on the concrete output `"Total: 98304 nicks"` the
parsed record satisfies the 65536 relation. -/
theorem c7_nick_factor_witness :
    (nock2.BalanceInfo.mk 98304 (((98304 : ℕ) : ℚ) / 65536) 0
      (((0 : ℕ) : ℚ) / 65536) (nock2.balanceFormatted 98304 0)).total_nock =
      ((nock2.BalanceInfo.mk 98304 (((98304 : ℕ) : ℚ) / 65536) 0
        (((0 : ℕ) : ℚ) / 65536)
        (nock2.balanceFormatted 98304 0)).total_nicks : ℚ) / 65536 ∧
    (nock2.BalanceInfo.mk 98304 (((98304 : ℕ) : ℚ) / 65536) 0
      (((0 : ℕ) : ℚ) / 65536)
      (nock2.balanceFormatted 98304 0)).available_nock =
      ((nock2.BalanceInfo.mk 98304 (((98304 : ℕ) : ℚ) / 65536) 0
        (((0 : ℕ) : ℚ) / 65536)
        (nock2.balanceFormatted 98304 0)).available_nicks : ℚ) / 65536 :=
  c7_nick_factor.1 "Total: 98304 nicks"
    (nock2.BalanceInfo.mk 98304 (((98304 : ℕ) : ℚ) / 65536) 0
      (((0 : ℕ) : ℚ) / 65536) (nock2.balanceFormatted 98304 0)) (by rfl)

/-- C8. Command construction and output parsing are deterministic and
carry no cross-call state: in the pure embedding two runs on equal inputs
are equal, and the base-command builders read only the configuration fields
they mention — `_build_base_command` of `nock2.py` reads the binary, the
client type, the two server settings, the imported flag and the wallet path
(never `last_used_directory`), and the v0.1.1 builder reads only the binary
and the client settings. -/
theorem c8_stateless_deterministic :
    (∀ s : String,
      nock2.parse_balance s = nock2.parse_balance s ∧
      nock2.parse_wallet_version s = nock2.parse_wallet_version s ∧
      nock2.parse_height s = nock2.parse_height s ∧
      nock2.parse_notes s = nock2.parse_notes s ∧
      nock2.extract_error s = nock2.extract_error s ∧
      v011.parse_balance s = v011.parse_balance s ∧
      v011.parse_notes s = v011.parse_notes s) ∧
    (∀ (c₁ c₂ : nock2.Config) (iw : Bool),
      c₁.wallet_binary = c₂.wallet_binary →
      c₁.client_type = c₂.client_type →
      c₁.public_server = c₂.public_server →
      c₁.private_port = c₂.private_port →
      c₁.wallet_imported = c₂.wallet_imported →
      c₁.wallet_path = c₂.wallet_path →
      nock2.build_base_command c₁ iw = nock2.build_base_command c₂ iw) ∧
    (∀ c₁ c₂ : v011.Config,
      c₁.wallet_binary = c₂.wallet_binary →
      c₁.client_type = c₂.client_type →
      c₁.public_server = c₂.public_server →
      c₁.private_port = c₂.private_port →
      v011.build_base_command c₁ = v011.build_base_command c₂) := by
  refine ⟨fun s => ⟨rfl, rfl, rfl, rfl, rfl, rfl, rfl⟩, ?_, ?_⟩
  · intro c₁ c₂ iw h1 h2 h3 h4 h5 h6
    obtain ⟨b1, p1, i1, t1, s1, pp1, l1⟩ := c₁
    obtain ⟨b2, p2, i2, t2, s2, pp2, l2⟩ := c₂
    simp only at h1 h2 h3 h4 h5 h6
    subst h1; subst h2; subst h3; subst h4; subst h5; subst h6
    rfl
  · intro c₁ c₂ h1 h2 h3 h4
    obtain ⟨b1, p1, i1, t1, s1, pp1⟩ := c₁
    obtain ⟨b2, p2, i2, t2, s2, pp2⟩ := c₂
    simp only at h1 h2 h3 h4
    subst h1; subst h2; subst h3; subst h4
    rfl

/-- Witness for C8: two nock2 configurations differing only in
`last_used_directory` produce the same base command. -/
theorem c8_stateless_deterministic_witness :
    nock2.build_base_command
      ⟨"nockchain-wallet", "w.wallet", true, "public",
       "https://nockchain-api.zorp.io", "50051", "/tmp/a"⟩ true =
    nock2.build_base_command
      ⟨"nockchain-wallet", "w.wallet", true, "public",
       "https://nockchain-api.zorp.io", "50051", "/tmp/b"⟩ true :=
  c8_stateless_deterministic.2.1 _ _ true rfl rfl rfl rfl rfl rfl

theorem v011_matchHeight_numPunct (s g : Chars)
    (h : v011.matchHeightAt s = some g) : ∀ x ∈ g, isNumPunct x = true := by
  unfold v011.matchHeightAt at h
  cases hd : dropLitCI "at height".data s with
  | none => rw [hd] at h; simp at h
  | some r0 =>
    rw [hd] at h
    simp only [Option.some_bind'] at h
    by_cases hg : ((r0.dropWhile isPySpace).takeWhile isNumPunct).isEmpty
    · rw [if_pos hg] at h; simp at h
    · rw [if_neg hg] at h
      have hg2 : g = (r0.dropWhile isPySpace).takeWhile isNumPunct :=
        (Option.some.injEq _ _ ▸ h).symm
      intro x hx
      rw [hg2] at hx
      exact List.mem_takeWhile_imp hx

theorem filter_numPunct_digits (g : Chars)
    (h : ∀ x ∈ g, isNumPunct x = true) :
    (g.filter fun c => !(c = ',' || c = '.')).all isDigitC = true := by
  rw [List.all_eq_true]
  intro x hx
  rw [List.mem_filter] at hx
  have h1 := h x hx.1
  have h2 := hx.2
  have h2a : ¬x = ',' ∧ ¬x = '.' := by simpa using h2
  have h1a : (isDigitC x = true ∨ x = '.') ∨ x = ',' := by
    simpa [isNumPunct] using h1
  rcases h1a with (hd | hp) | hc
  · exact hd
  · exact absurd hp h2a.2
  · exact absurd hc h2a.1

theorem pyIntNat_all_digits (s : Chars) (hne : s ≠ [])
    (hall : s.all isDigitC = true) : pyIntNat s = some (digitsToNat s) := by
  simp [pyIntNat, hne, hall]

/-- C9. `parse_height` of both variants is total (the `ValueError` of
`int` is the only possible failure and it is caught) and strips commas and
periods from the matched group before reading it in base 10: when the
height regex produces a group `g`, the result is the base-10 value of `g`
with `,` and `.` removed whenever a digit remains — so `1.5` reads as 15
and `1,234` as 1234 — and `None` when no digit remains; when the regex
does not match at all the result is `None`. -/
theorem c9_parse_height_strip :
    (∀ (s : String) (g : Chars),
      searchWith nock2.matchHeightAt s.data = some g →
      nock2.parse_height s =
        pyIntNat (g.filter fun c => !(c = ',' || c = '.')) ∧
      ((g.filter fun c => !(c = ',' || c = '.')) ≠ [] →
        nock2.parse_height s =
          some (digitsToNat (g.filter fun c => !(c = ',' || c = '.')))) ∧
      ((g.filter fun c => !(c = ',' || c = '.')) = [] →
        nock2.parse_height s = none)) ∧
    (∀ s : String, searchWith nock2.matchHeightAt s.data = none →
      nock2.parse_height s = none) ∧
    (∀ (s : String) (g : Chars),
      searchWith v011.matchHeightAt s.data = some g →
      v011.parse_height s =
        pyIntNat (g.filter fun c => !(c = ',' || c = '.')) ∧
      ((g.filter fun c => !(c = ',' || c = '.')) ≠ [] →
        v011.parse_height s =
          some (digitsToNat (g.filter fun c => !(c = ',' || c = '.')))) ∧
      ((g.filter fun c => !(c = ',' || c = '.')) = [] →
        v011.parse_height s = none)) ∧
    (∀ s : String, searchWith v011.matchHeightAt s.data = none →
      v011.parse_height s = none) ∧
    nock2.parse_height "Height: 1.5" = some 15 ∧
    nock2.parse_height "Height: 1,234" = some 1234 ∧
    v011.parse_height "at height 1.5" = some 15 := by
  refine ⟨?_, ?_, ?_, ?_, by decide, by decide, by decide⟩
  · intro s g h
    have h1 : nock2.parse_height s =
        pyIntNat (g.filter fun c => !(c = ',' || c = '.')) := by
      unfold nock2.parse_height
      rw [h]
    refine ⟨h1, ?_, ?_⟩
    · intro hne
      rw [h1]
      obtain ⟨t, ht, hmt⟩ := searchWith_some_imp _ _ _ h
      exact pyIntNat_all_digits _ hne
        (filter_numPunct_digits g (nock2_matchHeight_numPunct t g hmt))
    · intro hfe
      rw [h1, hfe]
      rfl
  · intro s h
    unfold nock2.parse_height
    rw [h]
  · intro s g h
    have h1 : v011.parse_height s =
        pyIntNat (g.filter fun c => !(c = ',' || c = '.')) := by
      unfold v011.parse_height
      rw [h]
    refine ⟨h1, ?_, ?_⟩
    · intro hne
      rw [h1]
      obtain ⟨t, ht, hmt⟩ := searchWith_some_imp _ _ _ h
      exact pyIntNat_all_digits _ hne
        (filter_numPunct_digits g (v011_matchHeight_numPunct t g hmt))
    · intro hfe
      rw [h1, hfe]
      rfl
  · intro s h
    unfold v011.parse_height
    rw [h]

/-- Witness for C9: concrete instances of each hypothesised branch —
`"Height: 1.5"` (group `1.5`, a digit remains), `"Height: ."` (group `.`,
no digit remains) and a string with no height token, in both variants. -/
theorem c9_parse_height_strip_witness :
    nock2.parse_height "Height: 1.5" =
      pyIntNat ((['1', '.', '5'] : Chars).filter
        fun c => !(c = ',' || c = '.')) ∧
    nock2.parse_height "Height: 1.5" =
      some (digitsToNat ((['1', '.', '5'] : Chars).filter
        fun c => !(c = ',' || c = '.'))) ∧
    nock2.parse_height "Height: ." = none ∧
    nock2.parse_height "xyz" = none ∧
    v011.parse_height "at height 1.5" =
      pyIntNat ((['1', '.', '5'] : Chars).filter
        fun c => !(c = ',' || c = '.')) ∧
    v011.parse_height "at height ." = none ∧
    v011.parse_height "xyz" = none :=
  ⟨(c9_parse_height_strip.1 "Height: 1.5" ['1', '.', '5'] (by decide)).1,
   (c9_parse_height_strip.1 "Height: 1.5" ['1', '.', '5']
     (by decide)).2.1 (by decide),
   (c9_parse_height_strip.1 "Height: ." ['.'] (by decide)).2.2 (by decide),
   c9_parse_height_strip.2.1 "xyz" (by decide),
   (c9_parse_height_strip.2.2.1 "at height 1.5" ['1', '.', '5']
     (by decide)).1,
   (c9_parse_height_strip.2.2.1 "at height ." ['.']
     (by decide)).2.2 (by decide),
   c9_parse_height_strip.2.2.2.1 "xyz" (by decide)⟩

theorem joinWith_cons_ne_nil (sep : Char) (l : Chars) (rest : List Chars)
    (h : l ≠ []) : joinWith sep (l :: rest) ≠ [] := by
  cases rest with
  | nil => simpa [joinWith] using h
  | cons r rs => simp [joinWith]

theorem nock2_errLines_ne_nil (s : Chars) :
    ∀ m ∈ nock2.errLines s, m ≠ [] := by
  intro m hm
  unfold nock2.errLines at hm
  rw [List.mem_filterMap] at hm
  obtain ⟨line, _, hline⟩ := hm
  simp only at hline
  repeat' split at hline
  all_goals simp_all

theorem v011_errLines_ne_nil (s : Chars) :
    ∀ m ∈ v011.errLines s, m ≠ [] := by
  intro m hm
  unfold v011.errLines at hm
  rw [List.mem_filterMap] at hm
  obtain ⟨line, _, hline⟩ := hm
  simp only at hline
  repeat' split at hline
  all_goals simp_all

/-- C10. `extract_error` of both variants never loses the error: for every
non-empty stderr the result is non-empty, because it is the kept lines
joined by newlines when at least one line survives the filtering (and
every surviving line is a non-empty stripped line), and the original
stderr unchanged when no line survives. -/
theorem c10_extract_error_nonempty :
    (∀ s : String, s.data ≠ [] → (nock2.extract_error s).data ≠ []) ∧
    (∀ s : String, nock2.errLines s.data = [] →
      nock2.extract_error s = s) ∧
    (∀ (s : String) (l : Chars) (rest : List Chars),
      nock2.errLines s.data = l :: rest →
      nock2.extract_error s = String.mk (joinWith '\n' (l :: rest))) ∧
    (∀ s : String, s.data ≠ [] → (v011.extract_error s).data ≠ []) ∧
    (∀ s : String, v011.errLines s.data = [] →
      v011.extract_error s = s) ∧
    (∀ (s : String) (l : Chars) (rest : List Chars),
      v011.errLines s.data = l :: rest →
      v011.extract_error s = String.mk (joinWith '\n' (l :: rest))) := by
  refine ⟨?_, ?_, ?_, ?_, ?_, ?_⟩
  · intro s hs
    unfold nock2.extract_error
    cases h : nock2.errLines s.data with
    | nil => exact hs
    | cons l rest =>
      have hl : l ≠ [] := nock2_errLines_ne_nil s.data l (h ▸ List.mem_cons_self l rest)
      simpa using joinWith_cons_ne_nil '\n' l rest hl
  · intro s h
    unfold nock2.extract_error
    rw [h]
  · intro s l rest h
    unfold nock2.extract_error
    rw [h]
  · intro s hs
    unfold v011.extract_error
    cases h : v011.errLines s.data with
    | nil => exact hs
    | cons l rest =>
      have hl : l ≠ [] := v011_errLines_ne_nil s.data l (h ▸ List.mem_cons_self l rest)
      simpa using joinWith_cons_ne_nil '\n' l rest hl
  · intro s h
    unfold v011.extract_error
    rw [h]
  · intro s l rest h
    unfold v011.extract_error
    rw [h]

/-- Witness for C10: `"boom"` is a non-empty stderr with one surviving
line, and the all-filtered stderr `"trace x"` is returned unchanged, in
both variants. -/
theorem c10_extract_error_nonempty_witness :
    (nock2.extract_error "boom").data ≠ [] ∧
    nock2.extract_error "trace x" = "trace x" ∧
    nock2.extract_error "boom" =
      String.mk (joinWith '\n' [['b', 'o', 'o', 'm']]) ∧
    (v011.extract_error "boom").data ≠ [] ∧
    v011.extract_error "trace x" = "trace x" ∧
    v011.extract_error "boom" =
      String.mk (joinWith '\n' [['b', 'o', 'o', 'm']]) :=
  ⟨c10_extract_error_nonempty.1 "boom" (by decide),
   c10_extract_error_nonempty.2.1 "trace x" (by decide),
   c10_extract_error_nonempty.2.2.1 "boom" ['b', 'o', 'o', 'm'] []
     (by decide),
   c10_extract_error_nonempty.2.2.2.1 "boom" (by decide),
   c10_extract_error_nonempty.2.2.2.2.1 "trace x" (by decide),
   c10_extract_error_nonempty.2.2.2.2.2 "boom" ['b', 'o', 'o', 'm'] []
     (by decide)⟩

theorem searchWith_leftmost {α : Type} (m : Chars → Option α) (s : Chars)
    (r : α) (h : searchWith m s = some r) :
    ∃ n : Nat, m (s.drop n) = some r ∧ ∀ k < n, m (s.drop k) = none := by
  induction s with
  | nil =>
    refine ⟨0, ?_, fun k hk => absurd hk (by omega)⟩
    simpa [searchWith] using h
  | cons c rest ih =>
    unfold searchWith at h
    cases hm : m (c :: rest) with
    | some r2 =>
      rw [hm] at h
      exact ⟨0, hm.trans h, fun k hk => absurd hk (by omega)⟩
    | none =>
      rw [hm] at h
      obtain ⟨n, hn, hk⟩ := ih h
      refine ⟨n + 1, by simpa using hn, ?_⟩
      intro k hlt
      cases k with
      | zero => simpa using hm
      | succ k2 =>
        have hk2 : k2 < n := by omega
        simpa using hk k2 hk2

/-- C5, counterexample. The claim says every output-parsing function,
including the note-list parser, depends only on the first occurrence of
its pattern. On an output with two note lines, `parse_notes` of `nock2.py`
returns both lines, not the claim-side first-match-only reading. -/
theorem c5_counterexample :
    nock2.parse_notes (String.mk
      (List.replicate 40 'a' ++ '\n' :: List.replicate 40 'b')) ≠
      specFirstNote (String.mk
        (List.replicate 40 'a' ++ '\n' :: List.replicate 40 'b')) ∧
    (nock2.parse_notes (String.mk
      (List.replicate 40 'a' ++ '\n' :: List.replicate 40 'b'))).length = 2 ∧
    (specFirstNote (String.mk
      (List.replicate 40 'a' ++ '\n' :: List.replicate 40 'b'))).length = 1
    := by
  refine ⟨by decide, by decide, by decide⟩

/-- C5, amended. The search-based parsers resolve ambiguity by first match
or none: a successful `searchWith` is the match at the leftmost matching
position (all later occurrences are ignored), it is `none` exactly when no
position matches, and the single-value parsers are plain images of that
first match. The note-list parsers are the exception the claim misses:
they return the stripped text of EVERY line containing a qualifying
40-character run, and only return the empty list when no line matches. -/
theorem c5_first_match :
    (∀ (α : Type) (m : Chars → Option α) (s : Chars) (r : α),
      searchWith m s = some r →
      ∃ n : Nat, m (s.drop n) = some r ∧ ∀ k < n, m (s.drop k) = none) ∧
    (∀ (α : Type) (m : Chars → Option α) (s : Chars),
      searchWith m s = none ↔ ∀ t ∈ s.tails, m t = none) ∧
    (∀ s : String, nock2.parse_wallet_version s =
      (searchWith nock2.matchVersionAt s.data).map String.mk) ∧
    (∀ s : String, v011.parse_block_hash s =
      (searchWith v011.matchBlockHashAt s.data).map String.mk) ∧
    (∀ s : String, v011.parse_number_of_notes s =
      (searchWith v011.matchNumNotesAt s.data).map digitsToNat) ∧
    (∀ lines : List Chars, lines ≠ [] → (∀ l ∈ lines, ∀ c ∈ l, ¬c = '\n') →
      nock2.parse_notes (String.mk (joinWith '\n' lines)) =
        lines.filterMap fun line =>
          if containsRun isHexLower 40 line then
            some (String.mk (pyStrip line))
          else none) ∧
    (∀ lines : List Chars, lines ≠ [] → (∀ l ∈ lines, ∀ c ∈ l, ¬c = '\n') →
      v011.parse_notes (String.mk (joinWith '\n' lines)) =
        lines.filterMap fun line =>
          if containsRun isAlnum 40 line then
            some (String.mk (pyStrip line))
          else none) ∧
    (∀ s : String,
      (∀ line ∈ splitOnChar '\n' s.data,
        containsRun isHexLower 40 line = false) →
      nock2.parse_notes s = []) ∧
    (∀ s : String,
      (∀ line ∈ splitOnChar '\n' s.data,
        containsRun isAlnum 40 line = false) →
      v011.parse_notes s = []) := by
  refine ⟨fun α m s r h => searchWith_leftmost m s r h,
    fun α m s => searchWith_eq_none_iff m s,
    fun s => rfl, fun s => rfl, fun s => rfl, ?_, ?_, ?_, ?_⟩
  · intro lines hne h
    unfold nock2.parse_notes
    rw [show (String.mk (joinWith '\n' lines)).data = joinWith '\n' lines
        from rfl]
    rw [splitOnChar_joinWith '\n' lines hne h]
  · intro lines hne h
    unfold v011.parse_notes
    rw [show (String.mk (joinWith '\n' lines)).data = joinWith '\n' lines
        from rfl]
    rw [splitOnChar_joinWith '\n' lines hne h]
  · intro s h
    unfold nock2.parse_notes
    rw [List.filterMap_eq_nil_iff]
    intro line hline
    rw [h line hline]
    simp
  · intro s h
    unfold v011.parse_notes
    rw [List.filterMap_eq_nil_iff]
    intro line hline
    rw [h line hline]
    simp

/-- Witness for C5 (amended): the leftmost-match property at the concrete
output `"Height: 7"`, the all-lines note equation on a one-line note
output, and the empty result on an output with no note line. -/
theorem c5_first_match_witness :
    (∃ n : Nat,
      nock2.matchHeightAt (("Height: 7").data.drop n) = some ['7'] ∧
      ∀ k < n, nock2.matchHeightAt (("Height: 7").data.drop k) = none) ∧
    nock2.parse_notes (String.mk (joinWith '\n' [List.replicate 40 'a'])) =
      ([List.replicate 40 'a'].filterMap fun line =>
        if containsRun isHexLower 40 line then
          some (String.mk (pyStrip line))
        else none) ∧
    v011.parse_notes (String.mk (joinWith '\n' [List.replicate 40 'a'])) =
      ([List.replicate 40 'a'].filterMap fun line =>
        if containsRun isAlnum 40 line then
          some (String.mk (pyStrip line))
        else none) ∧
    nock2.parse_notes "xyz" = [] ∧
    v011.parse_notes "xyz" = [] :=
  ⟨c5_first_match.1 Chars nock2.matchHeightAt ("Height: 7").data ['7']
     (by decide),
   c5_first_match.2.2.2.2.2.1 [List.replicate 40 'a'] (by decide)
     (by decide),
   c5_first_match.2.2.2.2.2.2.1 [List.replicate 40 'a'] (by decide)
     (by decide),
   c5_first_match.2.2.2.2.2.2.2.1 "xyz" (by decide),
   c5_first_match.2.2.2.2.2.2.2.2 "xyz" (by decide)⟩

/-- C4, counterexample. The claim says every external-command failure is
surfaced as a log line PLUS a modal dialog. A failed balance refresh of
`nock2.py` (non-zero exit code) appends an error log line but shows no
dialog at all. -/
theorem c4_counterexample :
    isCmdFailure (.completed 1 "" "boom") = true ∧
    1 ≤ numBadLogs (nock2.refresh_balance_trace
      ⟨"nockchain-wallet", "w.wallet", true, "public",
       "https://nockchain-api.zorp.io", "50051", "/home/u"⟩
      (.completed 1 "" "boom")) ∧
    numDialogs (nock2.refresh_balance_trace
      ⟨"nockchain-wallet", "w.wallet", true, "public",
       "https://nockchain-api.zorp.io", "50051", "/home/u"⟩
      (.completed 1 "" "boom")) = 0 :=
  ⟨by decide, by decide, by decide⟩

/-- C4, amended. Every external-command failure is caught locally, surfaced
as an error/warning log line, and never retried (each handler launches at
most one run of its command per invocation), but a modal dialog is NOT
always part of the surfacing: the balance-refresh, note-loading and
block-fetch handlers only log (no dialog on any outcome), the binary check
logs without a dialog on a non-zero exit and logs with a dialog on a
missing binary, and only the import and export handlers always pair the
failure log line with a modal dialog. Unparseable balance output is also
surfaced as a log line. -/
theorem c4_failure_surfacing :
    (∀ (cfg : nock2.Config) (o : RunOutcome),
      numDialogs (nock2.refresh_balance_trace cfg o) = 0 ∧
      numRuns (nock2.refresh_balance_trace cfg o) ≤ 1) ∧
    (∀ (cfg : nock2.Config) (o : RunOutcome), cfg.wallet_imported = true →
      isCmdFailure o = true →
      1 ≤ numBadLogs (nock2.refresh_balance_trace cfg o)) ∧
    (∀ (cfg : nock2.Config) (out err : String),
      cfg.wallet_imported = true → nock2.parse_balance out = none →
      1 ≤ numBadLogs
        (nock2.refresh_balance_trace cfg (.completed 0 out err))) ∧
    (∀ (cfg : nock2.Config) (watch : Bool) (o : RunOutcome),
      numDialogs (nock2.load_notes_trace cfg watch o) = 0 ∧
      numRuns (nock2.load_notes_trace cfg watch o) ≤ 1) ∧
    (∀ (cfg : nock2.Config) (watch : Bool) (o : RunOutcome),
      cfg.wallet_imported = true → isCmdFailure o = true →
      1 ≤ numBadLogs (nock2.load_notes_trace cfg watch o)) ∧
    (∀ (cfg : nock2.Config) (height : Nat) (o : RunOutcome), height ≠ 0 →
      numDialogs (nock2.get_block_trace cfg height o) = 0) ∧
    (∀ (cfg : nock2.Config) (height : Nat) (o : RunOutcome),
      numRuns (nock2.get_block_trace cfg height o) ≤ 1) ∧
    (∀ (cfg : nock2.Config) (height : Nat) (o : RunOutcome), height ≠ 0 →
      isCmdFailure o = true →
      1 ≤ numBadLogs (nock2.get_block_trace cfg height o)) ∧
    (∀ (cfg : nock2.Config) (o : RunOutcome),
      numRuns (nock2.check_binary_trace cfg o) = 1) ∧
    (∀ (cfg : nock2.Config) (rc : Int) (out err : String), rc ≠ 0 →
      1 ≤ numBadLogs
        (nock2.check_binary_trace cfg (.completed rc out err)) ∧
      numDialogs (nock2.check_binary_trace cfg (.completed rc out err)) =
        0) ∧
    (∀ cfg : nock2.Config,
      1 ≤ numBadLogs (nock2.check_binary_trace cfg .fileNotFound) ∧
      numDialogs (nock2.check_binary_trace cfg .fileNotFound) = 1) ∧
    (∀ (cfg : nock2.Config) (src : Option String) (we : Bool)
        (home : String) (o : RunOutcome),
      numRuns (nock2.import_wallet_trace cfg src we home o) ≤ 1) ∧
    (∀ (cfg : nock2.Config) (s : String) (we : Bool) (home : String)
        (o : RunOutcome), isCmdFailure o = true →
      1 ≤ numBadLogs (nock2.import_wallet_trace cfg (some s) we home o) ∧
      1 ≤ numDialogs (nock2.import_wallet_trace cfg (some s) we home o)) ∧
    (∀ (cfg : nock2.Config) (outFile : Option String) (o : RunOutcome),
      numRuns (nock2.export_wallet_trace cfg outFile o) ≤ 1) ∧
    (∀ (cfg : nock2.Config) (out : String) (o : RunOutcome),
      cfg.wallet_imported = true → isCmdFailure o = true →
      1 ≤ numBadLogs (nock2.export_wallet_trace cfg (some out) o) ∧
      1 ≤ numDialogs (nock2.export_wallet_trace cfg (some out) o)) ∧
    (∀ (cfg : v011.Config) (o : RunOutcome),
      numDialogs (v011.refresh_balance_trace cfg o) = 0 ∧
      numRuns (v011.refresh_balance_trace cfg o) ≤ 1) ∧
    (∀ (cfg : v011.Config) (o : RunOutcome), cfg.wallet_imported = true →
      isCmdFailure o = true →
      1 ≤ numBadLogs (v011.refresh_balance_trace cfg o)) ∧
    (∀ (cfg : v011.Config) (out err : String),
      cfg.wallet_imported = true → v011.parse_balance out = none →
      1 ≤ numBadLogs
        (v011.refresh_balance_trace cfg (.completed 0 out err))) :=
  ⟨refresh_trace_no_dialog,
   fun cfg o h1 h2 => refresh_trace_fail_log cfg o h1 h2,
   fun cfg out err h1 h2 => refresh_trace_unparseable_log cfg out err h1 h2,
   load_notes_trace_no_dialog,
   fun cfg w o h1 h2 => load_notes_trace_fail_log cfg w o h1 h2,
   fun cfg ht o h1 => (get_block_trace_no_dialog cfg ht o h1).1,
   get_block_trace_runs,
   fun cfg ht o h1 h2 => get_block_trace_fail_log cfg ht o h1 h2,
   check_binary_trace_runs,
   fun cfg rc out err h1 => check_binary_trace_nonzero cfg rc out err h1,
   check_binary_trace_notfound,
   import_trace_runs,
   fun cfg s we home o h1 => import_trace_fail cfg s we home o h1,
   export_trace_runs,
   fun cfg out o h1 h2 => export_trace_fail cfg out o h1 h2,
   v011_refresh_trace_no_dialog,
   fun cfg o h1 h2 => v011_refresh_trace_fail_log cfg o h1 h2,
   fun cfg out err h1 h2 =>
     v011_refresh_trace_unparseable_log cfg out err h1 h2⟩

/-- Witness for C4 (amended): each hypothesised clause at a concrete
configuration and outcome — timed-out refresh, unparseable balance output,
timed-out note loading, block fetch at height 5, non-zero binary check,
timed-out import and export, and the v0.1.1 refresh — all discharged on
concrete data. -/
theorem c4_failure_surfacing_witness :
    1 ≤ numBadLogs (nock2.refresh_balance_trace
      ⟨"nockchain-wallet", "w.wallet", true, "public",
       "https://nockchain-api.zorp.io", "50051", "/home/u"⟩ .timedOut) ∧
    1 ≤ numBadLogs (nock2.refresh_balance_trace
      ⟨"nockchain-wallet", "w.wallet", true, "public",
       "https://nockchain-api.zorp.io", "50051", "/home/u"⟩
      (.completed 0 "oops" "")) ∧
    1 ≤ numBadLogs (nock2.load_notes_trace
      ⟨"nockchain-wallet", "w.wallet", true, "public",
       "https://nockchain-api.zorp.io", "50051", "/home/u"⟩
      false .timedOut) ∧
    numDialogs (nock2.get_block_trace
      ⟨"nockchain-wallet", "w.wallet", true, "public",
       "https://nockchain-api.zorp.io", "50051", "/home/u"⟩
      5 .timedOut) = 0 ∧
    1 ≤ numBadLogs (nock2.get_block_trace
      ⟨"nockchain-wallet", "w.wallet", true, "public",
       "https://nockchain-api.zorp.io", "50051", "/home/u"⟩
      5 .timedOut) ∧
    (1 ≤ numBadLogs (nock2.check_binary_trace
      ⟨"nockchain-wallet", "w.wallet", true, "public",
       "https://nockchain-api.zorp.io", "50051", "/home/u"⟩
      (.completed 1 "" "")) ∧
     numDialogs (nock2.check_binary_trace
      ⟨"nockchain-wallet", "w.wallet", true, "public",
       "https://nockchain-api.zorp.io", "50051", "/home/u"⟩
      (.completed 1 "" "")) = 0) ∧
    (1 ≤ numBadLogs (nock2.import_wallet_trace
      ⟨"nockchain-wallet", "w.wallet", true, "public",
       "https://nockchain-api.zorp.io", "50051", "/home/u"⟩
      (some "k.keys") true "/home/u" .timedOut) ∧
     1 ≤ numDialogs (nock2.import_wallet_trace
      ⟨"nockchain-wallet", "w.wallet", true, "public",
       "https://nockchain-api.zorp.io", "50051", "/home/u"⟩
      (some "k.keys") true "/home/u" .timedOut)) ∧
    (1 ≤ numBadLogs (nock2.export_wallet_trace
      ⟨"nockchain-wallet", "w.wallet", true, "public",
       "https://nockchain-api.zorp.io", "50051", "/home/u"⟩
      (some "out.keys") .timedOut) ∧
     1 ≤ numDialogs (nock2.export_wallet_trace
      ⟨"nockchain-wallet", "w.wallet", true, "public",
       "https://nockchain-api.zorp.io", "50051", "/home/u"⟩
      (some "out.keys") .timedOut)) ∧
    1 ≤ numBadLogs (v011.refresh_balance_trace
      ⟨"nockchain-wallet", "w.wallet", true, "public",
       "https://nockchain-api.zorp.io", "50051"⟩ .timedOut) ∧
    1 ≤ numBadLogs (v011.refresh_balance_trace
      ⟨"nockchain-wallet", "w.wallet", true, "public",
       "https://nockchain-api.zorp.io", "50051"⟩
      (.completed 0 "oops" "")) :=
  ⟨c4_failure_surfacing.2.1 _ .timedOut (by decide) (by decide),
   c4_failure_surfacing.2.2.1 _ "oops" "" (by decide) (by decide),
   c4_failure_surfacing.2.2.2.2.1 _ false .timedOut (by decide) (by decide),
   c4_failure_surfacing.2.2.2.2.2.1 _ 5 .timedOut (by decide),
   c4_failure_surfacing.2.2.2.2.2.2.2.1 _ 5 .timedOut (by decide)
     (by decide),
   c4_failure_surfacing.2.2.2.2.2.2.2.2.2.1 _ 1 "" "" (by decide),
   c4_failure_surfacing.2.2.2.2.2.2.2.2.2.2.2.2.1 _ "k.keys" true
     "/home/u" .timedOut (by decide),
   c4_failure_surfacing.2.2.2.2.2.2.2.2.2.2.2.2.2.2.1 _ "out.keys"
     .timedOut (by decide) (by decide),
   c4_failure_surfacing.2.2.2.2.2.2.2.2.2.2.2.2.2.2.2.2.1 _ .timedOut
     (by decide) (by decide),
   c4_failure_surfacing.2.2.2.2.2.2.2.2.2.2.2.2.2.2.2.2.2 _ "oops" ""
     (by decide) (by decide)⟩
